import Mathlib

/-!
# Cloud Function resource: expand / flatten helpers and CRUD handlers

A shallow embedding of `google/resource_cloud_function.go`.

* Go values of type `interface{}` are the inductive `Value`.
* A Go `map[string]interface{}` is an association list `Block`; indexing reads the
  first binding of a key, assignment replaces every binding of the key.
* A Go pointer to a struct is an `Option`; dereferencing `nil` and a failed
  unchecked type assertion are run-time panics, modelled by `Except Panic`.
* Go strings are modelled by Lean strings (sequences of Unicode scalar values).
* The remote service is a `Client`, whose answers are functions of the calls issued so
  far; a handler takes the list of those calls (`World`) and returns it extended, so that
  the calls a handler issues, and their order, are part of its result.
* A handler returns the new local state, the new world and its Go `error` (`none` is
  `nil`); Create and Read can also panic.
* The wait of the host framework runs sequentially, with a budget of status queries in
  place of its real-time timeout.
-/

set_option autoImplicit false

namespace Google

/-! ## Dynamic values -/

/-- A Go value of static type `interface{}`, as it occurs in configuration blocks. -/
inductive Value where
  | nil
  | bool (b : Bool)
  | int (n : Int)
  | str (s : String)
  | list (l : List Value)
  | map (m : List (String × Value))

/-- A Go `map[string]interface{}`. -/
abbrev Block := List (String × Value)

/-- Run-time panics of the Go program. -/
inductive Panic where
  | nilDereference
  | typeAssertion
  deriving DecidableEq, Repr

/-- Map indexing `m[k]`: the zero value of `interface{}` (nil) when the key is absent. -/
def Block.index (m : Block) (k : String) : Value :=
  match m.lookup k with
  | some v => v
  | none => Value.nil

/-- Map assignment `m[k] = v`. -/
def Block.set (m : Block) (k : String) (v : Value) : Block :=
  (k, v) :: m.filter (fun p => p.1 != k)

/-- The checked type assertion `v.(string)` in its two-result form. -/
def Value.assertString : Value → String × Bool
  | Value.str s => (s, true)
  | _ => ("", false)

/-- The unchecked type assertion `v.(map[string]interface{})`, which panics
on any other dynamic type. -/
def Value.assertMap : Value → Except Panic Block
  | Value.map m => Except.ok m
  | _ => Except.error Panic.typeAssertion

/-- The comparison `v == nil` on an interface value. -/
def Value.isNil : Value → Bool
  | Value.nil => true
  | _ => false

/-! ## API structs (`google.golang.org/api/cloudfunctions/v1beta2`)

The structs are declared in the API client library; each is modelled with the fields the
resource reads or writes. -/

/-- The struct `cloudfunctions.EventTrigger`. -/
structure EventTrigger where
  EventType : String := ""
  Resource : String := ""
  deriving DecidableEq, Repr

/-- The struct `cloudfunctions.HTTPSTrigger`. -/
structure HTTPSTrigger where
  Url : String := ""
  deriving DecidableEq, Repr

/-- The struct `cloudfunctions.SourceRepository`. -/
structure SourceRepository where
  Branch : String := ""
  DeployedRevision : String := ""
  RepositoryUrl : String := ""
  Revision : String := ""
  SourcePath : String := ""
  Tag : String := ""
  deriving DecidableEq, Repr

/-! ## Expand -/

def expandFunctionEventTrigger (l : List Value) : Except Panic (Option EventTrigger) :=
  match l with
  | [] => Except.ok none
  | l0 :: _ =>
    if l0.isNil then Except.ok none
    else
      match l0.assertMap with
      | Except.error p => Except.error p
      | Except.ok in_ =>
        let obj : EventTrigger := {}
        let r := (in_.index "event_type").assertString
        let obj := if r.2 then { obj with EventType := r.1 } else obj
        let r := (in_.index "resource").assertString
        let obj := if r.2 then { obj with Resource := r.1 } else obj
        Except.ok (some obj)

def expandFunctionHttpsTrigger (l : List Value) : Except Panic (Option HTTPSTrigger) :=
  match l with
  | [] => Except.ok none
  | l0 :: _ =>
    if l0.isNil then Except.ok none
    else
      match l0.assertMap with
      | Except.error p => Except.error p
      | Except.ok in_ =>
        let obj : HTTPSTrigger := {}
        let r := (in_.index "url").assertString
        let obj := if r.2 then { obj with Url := r.1 } else obj
        Except.ok (some obj)

def expandFunctionSourceRepository (l : List Value) : Except Panic (Option SourceRepository) :=
  match l with
  | [] => Except.ok none
  | l0 :: _ =>
    if l0.isNil then Except.ok none
    else
      match l0.assertMap with
      | Except.error p => Except.error p
      | Except.ok in_ =>
        let obj : SourceRepository := {}
        let r := (in_.index "branch").assertString
        let obj := if r.2 then { obj with Branch := r.1 } else obj
        let r := (in_.index "deployed_revision").assertString
        let obj := if r.2 then { obj with DeployedRevision := r.1 } else obj
        let r := (in_.index "repository_url").assertString
        let obj := if r.2 then { obj with RepositoryUrl := r.1 } else obj
        let r := (in_.index "revision").assertString
        let obj := if r.2 then { obj with Revision := r.1 } else obj
        let r := (in_.index "source_path").assertString
        let obj := if r.2 then { obj with SourcePath := r.1 } else obj
        let r := (in_.index "tag").assertString
        let obj := if r.2 then { obj with Tag := r.1 } else obj
        Except.ok (some obj)

/-! ## Flatten -/

def flattenFunctionEventTrigger (in_ : Option EventTrigger) : Except Panic (List Value) :=
  match in_ with
  | none => Except.error Panic.nilDereference
  | some x =>
    let att : Block := []
    let att := if x.EventType != "" then att.set "event_type" (Value.str x.EventType) else att
    let att := if x.Resource != "" then att.set "resource" (Value.str x.Resource) else att
    Except.ok [Value.map att]

def flattenFunctionHttpsTrigger (in_ : Option HTTPSTrigger) : Except Panic (List Value) :=
  match in_ with
  | none => Except.error Panic.nilDereference
  | some x =>
    let att : Block := []
    let att := if x.Url != "" then att.set "url" (Value.str x.Url) else att
    Except.ok [Value.map att]

def flattenFunctionSourceRepository (in_ : Option SourceRepository) :
    Except Panic (List Value) :=
  match in_ with
  | none => Except.error Panic.nilDereference
  | some x =>
    let att : Block := []
    let att := if x.Branch != "" then att.set "branch" (Value.str x.Branch) else att
    let att :=
      if x.DeployedRevision != "" then
        att.set "deployed_revision" (Value.str x.DeployedRevision)
      else att
    let att :=
      if x.RepositoryUrl != "" then att.set "repository_url" (Value.str x.RepositoryUrl)
      else att
    let att := if x.Revision != "" then att.set "revision" (Value.str x.Revision) else att
    let att :=
      if x.SourcePath != "" then att.set "source_path" (Value.str x.SourcePath) else att
    let att := if x.Tag != "" then att.set "tag" (Value.str x.Tag) else att
    Except.ok [Value.map att]

/-- Schema keys of the `event_trigger` block. -/
def eventTriggerKeys : List String := ["event_type", "resource"]

/-- Schema keys of the `https_trigger` block. -/
def httpsTriggerKeys : List String := ["url"]

/-- Schema keys of the `source_repository` block. -/
def sourceRepositoryKeys : List String :=
  ["branch", "deployed_revision", "repository_url", "revision", "source_path", "tag"]

/-- The string bound to `k` in a block: the empty string when `k` is absent or bound to a
value of another dynamic type. -/
def Block.stringAt (m : Block) (k : String) : String :=
  match List.lookup k m with
  | some (Value.str s) => s
  | _ => ""

/-- The binding of a key whose field is `s` in a flattened block: none when `s` is empty. -/
def optStr (s : String) : Option Value := if s = "" then none else some (Value.str s)

/-! ## Formatting with the verb `%q` (`strconv.Quote`) -/

/-- The double quote character. -/
def dquote : Char := Char.ofNat 34

/-- The backslash character. -/
def backslash : Char := Char.ofNat 92

/-- The digit table `lowerhex` of `strconv`. -/
def lowerhex (n : Nat) : Char :=
  ['0', '1', '2', '3', '4', '5', '6', '7', '8', '9', 'a', 'b', 'c', 'd', 'e', 'f'].getD n '0'

/-- The function `strconv.IsPrint`: decided in the code itself on Latin-1; beyond Latin-1
it reads Unicode tables, which are the parameter `tbl`. -/
def isPrint (tbl : Char → Bool) (r : Char) : Bool :=
  if r.toNat ≤ 0xFF then
    if 0x20 ≤ r.toNat ∧ r.toNat < 0x7F then true
    else if 0xA1 ≤ r.toNat then r.toNat != 0xAD
    else false
  else tbl r

/-- The function `appendEscapedRune` of `strconv` for the quote `"`, with neither
`ASCIIonly` nor `graphicOnly`, which is what `%q` uses. -/
def escapedRune (tbl : Char → Bool) (r : Char) : List Char :=
  if r = dquote ∨ r = backslash then [backslash, r]
  else if isPrint tbl r then [r]
  else if r.toNat = 7 then [backslash, 'a']
  else if r.toNat = 8 then [backslash, 'b']
  else if r.toNat = 12 then [backslash, 'f']
  else if r.toNat = 10 then [backslash, 'n']
  else if r.toNat = 13 then [backslash, 'r']
  else if r.toNat = 9 then [backslash, 't']
  else if r.toNat = 11 then [backslash, 'v']
  else if r.toNat < 0x20 ∨ r.toNat = 0x7F then
    [backslash, 'x', lowerhex (r.toNat / 16 % 16), lowerhex (r.toNat % 16)]
  else if r.toNat < 0x10000 then
    [backslash, 'u', lowerhex (r.toNat / 4096 % 16), lowerhex (r.toNat / 256 % 16),
      lowerhex (r.toNat / 16 % 16), lowerhex (r.toNat % 16)]
  else
    [backslash, 'U', lowerhex (r.toNat / 268435456 % 16), lowerhex (r.toNat / 16777216 % 16),
      lowerhex (r.toNat / 1048576 % 16), lowerhex (r.toNat / 65536 % 16),
      lowerhex (r.toNat / 4096 % 16), lowerhex (r.toNat / 256 % 16),
      lowerhex (r.toNat / 16 % 16), lowerhex (r.toNat % 16)]

/-- The rendering of a string by the verb `%q`, that is `strconv.Quote`. -/
def goQuote (tbl : Char → Bool) (s : String) : String :=
  String.mk (dquote :: (s.data.flatMap (escapedRune tbl) ++ [dquote]))

/-- Substring test on strings, as `strings.Contains msg s`. -/
def containsSubstring (msg s : String) : Prop := s.data <:+: msg.data

instance (msg s : String) : Decidable (containsSubstring msg s) := by
  unfold containsSubstring
  infer_instance

/-- A character `%q` copies unchanged: printable, and neither the quote nor the backslash. -/
def plainRune (tbl : Char → Bool) (r : Char) : Bool :=
  isPrint tbl r && r != dquote && r != backslash

/-! ## Errors -/

/-- Go `error` values the handlers see. -/
inductive GoError where
  /-- A `*googleapi.Error`. -/
  | googleapi (Code : Int) (Message : String) (Body : String)
  /-- The result of `fmt.Errorf`, with its message. -/
  | errorf (message : String)
  /-- Any other error value (transport failures and the like). -/
  | other (message : String)
  /-- A `*resource.TimeoutError`. -/
  | timeout
  /-- A `*resource.NotFoundError`. -/
  | notFound
  /-- A `*resource.UnexpectedStateError`. -/
  | unexpectedState (state : String)
  deriving DecidableEq, Repr

/-! ## The remote API -/

/-- The struct `cloudfunctions.Status`. -/
structure Status where
  Code : Int := 0
  Message : String := ""
  deriving DecidableEq, Repr

/-- The struct `cloudfunctions.Operation`; `Error` is a pointer. -/
structure Operation where
  Name : String := ""
  Done : Bool := false
  Error : Option Status := none
  deriving DecidableEq, Repr

/-- The struct `cloudfunctions.CloudFunction`; the three sub-structs are pointers. -/
structure CloudFunction where
  AvailableMemoryMb : Int := 0
  EntryPoint : String := ""
  EventTrigger : Option Google.EventTrigger := none
  HttpsTrigger : Option Google.HTTPSTrigger := none
  LatestOperation : String := ""
  Name : String := ""
  ServiceAccount : String := ""
  SourceArchiveUrl : String := ""
  SourceRepository : Option Google.SourceRepository := none
  Status : String := ""
  Timeout : String := ""
  UpdateTime : String := ""
  deriving DecidableEq, Repr

/-- A call on `config.clientFunctions`. -/
inductive Request where
  | functionsCreate (location : String) (function : CloudFunction)
  | functionsGet (name : String)
  | functionsUpdate (name : String) (function : CloudFunction)
  | functionsDelete (name : String)
  | operationsGet (name : String)
  deriving DecidableEq, Repr

/-- The state of the outside world a handler runs in: the calls issued so far, oldest
first. -/
abbrev World := List Request

/-- The remote service behind `config.clientFunctions`: the answer to a call is a function
of the calls issued before it and of the call itself, which covers every deterministic
stateful service. -/
structure Client where
  functionsCreate : World → String → CloudFunction → Except GoError Operation
  functionsGet : World → String → Except GoError CloudFunction
  functionsUpdate : World → String → CloudFunction → Except GoError Operation
  functionsDelete : World → String → Except GoError Operation
  operationsGet : World → String → Except GoError Operation

/-- The provider configuration `Config`, restricted to what the resource reads. -/
structure Config where
  Project : String
  Region : String
  clientFunctions : Client

/-! ## Local state (`schema.ResourceData`) -/

/-- The resource data of a `google_cloudfunctions_function`: the identifier and one field
per schema attribute, holding the value `Get` reads, typed as the schema types it. `GetOk`
reports a field as set when it differs from the zero value of its type. `Set` on a scalar
field overwrites it; on a list-of-block field see `ResourceData.setBlocks`. -/
structure ResourceData where
  id : String := ""
  available_memory_mb : Int := 0
  entry_point : String := ""
  event_trigger : List Value := []
  https_trigger : List Value := []
  location : String := ""
  name : String := ""
  service_account : String := ""
  source_archive_url : String := ""
  source_repository : List Value := []
  timeout : String := ""

/-- A block whose every binding is a schema key bound to a string: what the field writer
of the framework accepts for a block with string-typed attributes `keys`. -/
def storableBlock (keys : List String) (m : Block) : Bool :=
  m.all (fun p => keys.contains p.1 &&
    (match p.2 with
     | Value.str _ => true
     | _ => false))

/-- An element of a list of blocks the field writer accepts: nil or a storable block. -/
def storableElement (keys : List String) (v : Value) : Bool :=
  match v with
  | Value.nil => true
  | Value.map m => storableBlock keys m
  | _ => false

/-- An accepted element as it is read back: a block in which no attribute was written is
read as nil; any other block is read with every schema key, the attributes that were not
written as the empty string. -/
def storedElement (keys : List String) (v : Value) : Value :=
  match v with
  | Value.map m =>
    if m.isEmpty then Value.nil
    else Value.map (keys.map (fun k => (k, Value.str (Block.stringAt m k))))
  | _ => Value.nil

/-- Modelled from the spec: the value of a list-of-block field after `Set` of the host
framework's `schema.ResourceData`, as `Get` reads it back; the framework is not among the
sources. `Set` writes the attributes of each block one by one and `Get` reads every schema
key of each block, so that the local view stays structurally reconcilable with the schema:
`old` is the value before, `new` the value passed to `Set`. A value the writer does not
accept makes `Set` return an error (which Read ignores) and leaves the field as it was. -/
def ResourceData.setBlocks (keys : List String) (old new : List Value) : List Value :=
  if new.all (storableElement keys) then new.map (storedElement keys) else old

/-- What the handlers take from their surroundings: functions of this package defined in
other files, the Unicode tables of `strconv`, and how many status queries fit in the
five minute timeout of a wait. -/
structure Env where
  getProject : ResourceData → Config → Except GoError String
  handleNotFoundError : GoError → ResourceData → String → ResourceData × Option GoError
  isPrintTable : Char → Bool
  pollBudget : Nat

/-! ## Waiting for a state (`resource.StateChangeConf`) -/

/-- The first result of a `Refresh` function, of type `interface{}`. -/
inductive RefreshResult where
  | nil
  | int (n : Int)
  | function (resp : CloudFunction)
  deriving DecidableEq, Repr

/-- The struct `resource.StateChangeConf`, with the fields the resource sets. -/
structure StateChangeConf where
  Target : List String
  Pending : List String
  Refresh : World → (RefreshResult × String × Option GoError) × World

/-- Modelled from the spec: the method `WaitForState` of `resource.StateChangeConf`, the
poller of the host framework, whose source is not among the files of the resource. On each
tick it queries the status again with `Refresh`; an error of the query ends the wait with
that error; a target state ends the wait successfully, and so does an absent result when
there is no target state (waiting for absence); a pending state continues polling; a state
that is neither, when pending states are declared, ends the wait with an unexpected-state
error; an absent result while a target is awaited is tolerated twenty times; exceeding the
timeout ends the wait with a timeout error. The wait is run sequentially: `budget` is the
number of status queries that fit in `Timeout`. -/
def StateChangeConf.WaitForState (conf : StateChangeConf) :
    Nat → Nat → World → (RefreshResult × Option GoError) × World
  | 0, _, w => ((RefreshResult.nil, some GoError.timeout), w)
  | budget + 1, notfoundTick, w =>
    match conf.Refresh w with
    | ((res, _, some err), w1) => ((res, some err), w1)
    | ((RefreshResult.nil, _, none), w1) =>
      if conf.Target.isEmpty then ((RefreshResult.nil, none), w1)
      else if notfoundTick + 1 > 20 then ((RefreshResult.nil, some GoError.notFound), w1)
      else conf.WaitForState budget (notfoundTick + 1) w1
    | ((res, currentState, none), w1) =>
      if currentState ∈ conf.Target then ((res, none), w1)
      else if currentState ∈ conf.Pending then conf.WaitForState budget 0 w1
      else if !conf.Pending.isEmpty then
        ((res, some (GoError.unexpectedState currentState)), w1)
      else conf.WaitForState budget 0 w1

/-- The world reached from `w` by `k` status queries that each answer with a pending
state, when there is such a run. -/
def StateChangeConf.pendingPolls (conf : StateChangeConf) : Nat → World → Option World
  | 0, w => some w
  | k + 1, w =>
    match conf.Refresh w with
    | ((RefreshResult.function _, currentState, none), w1) =>
      if currentState ∉ conf.Target ∧ currentState ∈ conf.Pending then
        conf.pendingPolls k w1
      else none
    | _ => none

/-! ## Handlers -/

/-- The descriptor `function` built by `resourceCloudFunctionCreate` from the configuration
(the struct literal and the seven `GetOk` assignments). -/
def resourceCloudFunctionCreate_function (d : ResourceData) (id : String) :
    Except Panic CloudFunction :=
  let function : CloudFunction := { Name := id }
  let function :=
    if d.available_memory_mb ≠ 0 then
      { function with AvailableMemoryMb := d.available_memory_mb }
    else function
  let function :=
    if d.entry_point ≠ "" then { function with EntryPoint := d.entry_point } else function
  let function :=
    if d.source_archive_url ≠ "" then
      { function with SourceArchiveUrl := d.source_archive_url }
    else function
  let function :=
    if d.timeout ≠ "" then { function with Timeout := d.timeout } else function
  match (if d.event_trigger.isEmpty then Except.ok function.EventTrigger
         else expandFunctionEventTrigger d.event_trigger) with
  | Except.error p => Except.error p
  | Except.ok eventTrigger =>
    let function := { function with EventTrigger := eventTrigger }
    match (if d.https_trigger.isEmpty then Except.ok function.HttpsTrigger
           else expandFunctionHttpsTrigger d.https_trigger) with
    | Except.error p => Except.error p
    | Except.ok httpsTrigger =>
      let function := { function with HttpsTrigger := httpsTrigger }
      match (if d.source_repository.isEmpty then Except.ok function.SourceRepository
             else expandFunctionSourceRepository d.source_repository) with
      | Except.error p => Except.error p
      | Except.ok sourceRepository =>
        Except.ok { function with SourceRepository := sourceRepository }

/-- The message of `fmt.Errorf("Deploying cloud function %q failed: %q", name, reason)`. -/
def deployFailedMessage (tbl : Char → Bool) (name reason : String) : String :=
  "Deploying cloud function " ++ goQuote tbl name ++ " failed: " ++ goQuote tbl reason

/-- The message of `fmt.Errorf("Deletion of function %q failed.", name)`. -/
def deletionFailedMessage (tbl : Char → Bool) (name : String) : String :=
  "Deletion of function " ++ goQuote tbl name ++ " failed."

/-- The closure `stateConf.Refresh` of `resourceCloudFunctionCreate`. -/
def resourceCloudFunctionCreate_Refresh (env : Env) (config : Config)
    (function : CloudFunction) (name : String) (w : World) :
    (RefreshResult × String × Option GoError) × World :=
  let w1 := w ++ [Request.functionsGet function.Name]
  match config.clientFunctions.functionsGet w function.Name with
  | Except.error err => ((RefreshResult.int 42, "", some err), w1)
  | Except.ok resp =>
    if resp.Status = "FAILED" then
      let w2 := w1 ++ [Request.operationsGet resp.LatestOperation]
      match config.clientFunctions.operationsGet w1 resp.LatestOperation with
      | Except.error err => ((RefreshResult.int 42, "", some err), w2)
      | Except.ok out =>
        let reason := ""
        let reason :=
          match out.Error with
          | some e => e.Message
          | none => reason
        ((RefreshResult.int 42, "FAILED",
          some (GoError.errorf (deployFailedMessage env.isPrintTable name reason))), w2)
    else ((RefreshResult.function resp, resp.Status, none), w1)

/-- The `stateConf` of `resourceCloudFunctionCreate`. -/
def resourceCloudFunctionCreate_stateConf (env : Env) (config : Config)
    (function : CloudFunction) (name : String) : StateChangeConf :=
  { Target := ["READY", "FAILED"]
    Pending := ["STATUS_UNSPECIFIED", "DEPLOYING"]
    Refresh := resourceCloudFunctionCreate_Refresh env config function name }

def resourceCloudFunctionRead (env : Env) (d : ResourceData) (config : Config) (w : World) :
    Except Panic (ResourceData × World × Option GoError) :=
  let name := d.id
  let w1 := w ++ [Request.functionsGet name]
  match config.clientFunctions.functionsGet w name with
  | Except.error err =>
    let r := env.handleNotFoundError err d ("Cloud Function " ++ goQuote env.isPrintTable name)
    Except.ok (r.1, w1, r.2)
  | Except.ok resp =>
    let d :=
      if resp.AvailableMemoryMb ≠ 0 then
        { d with available_memory_mb := resp.AvailableMemoryMb }
      else d
    let d := if resp.EntryPoint ≠ "" then { d with entry_point := resp.EntryPoint } else d
    let d :=
      if resp.SourceArchiveUrl ≠ "" then
        { d with source_archive_url := resp.SourceArchiveUrl }
      else d
    let d := if resp.Timeout ≠ "" then { d with timeout := resp.Timeout } else d
    match (if resp.EventTrigger.isSome then
             (flattenFunctionEventTrigger resp.EventTrigger).map
               (ResourceData.setBlocks eventTriggerKeys d.event_trigger)
           else Except.ok d.event_trigger) with
    | Except.error p => Except.error p
    | Except.ok eventTrigger =>
      let d := { d with event_trigger := eventTrigger }
      match (if resp.HttpsTrigger.isSome then
               (flattenFunctionHttpsTrigger resp.HttpsTrigger).map
                 (ResourceData.setBlocks httpsTriggerKeys d.https_trigger)
             else Except.ok d.https_trigger) with
      | Except.error p => Except.error p
      | Except.ok httpsTrigger =>
        let d := { d with https_trigger := httpsTrigger }
        match (if resp.SourceRepository.isSome then
                 (flattenFunctionSourceRepository resp.SourceRepository).map
                   (ResourceData.setBlocks sourceRepositoryKeys d.source_repository)
               else Except.ok d.source_repository) with
        | Except.error p => Except.error p
        | Except.ok sourceRepository =>
          let d := { d with source_repository := sourceRepository }
          Except.ok (d, w1, none)

def resourceCloudFunctionCreate (env : Env) (d : ResourceData) (config : Config) (w : World) :
    Except Panic (ResourceData × World × Option GoError) :=
  match env.getProject d config with
  | Except.error err => Except.ok (d, w, some err)
  | Except.ok project =>
    let rawLocation := config.Region
    let rawLocation := if d.location ≠ "" then d.location else rawLocation
    let location := "projects/" ++ project ++ "/locations/" ++ rawLocation
    let name := d.name
    let id := "projects/" ++ project ++ "/locations/" ++ rawLocation ++ "/functions/" ++ name
    match resourceCloudFunctionCreate_function d id with
    | Except.error p => Except.error p
    | Except.ok function =>
      let w1 := w ++ [Request.functionsCreate location function]
      match config.clientFunctions.functionsCreate w location function with
      | Except.error err => Except.ok (d, w1, some err)
      | Except.ok _ =>
        let d := { d with id := function.Name }
        let stateConf := resourceCloudFunctionCreate_stateConf env config function name
        match stateConf.WaitForState env.pollBudget 0 w1 with
        | ((_, some err), w2) => Except.ok (d, w2, some err)
        | ((_, none), w2) => resourceCloudFunctionRead env d config w2

def resourceCloudFunctionUpdate (d : ResourceData) (config : Config) (w : World) :
    ResourceData × World × Option GoError :=
  let name := d.id
  let function : CloudFunction := {}
  let w1 := w ++ [Request.functionsUpdate name function]
  match config.clientFunctions.functionsUpdate w name function with
  | Except.error err => (d, w1, some err)
  | Except.ok _ => (d, w1, none)

/-- The closure `stateConf.Refresh` of `resourceCloudFunctionDelete`. -/
def resourceCloudFunctionDelete_Refresh (env : Env) (config : Config) (name : String)
    (w : World) : (RefreshResult × String × Option GoError) × World :=
  let w1 := w ++ [Request.functionsGet name]
  match config.clientFunctions.functionsGet w name with
  | Except.error err =>
    match err with
    | GoError.googleapi code _ _ =>
      if code = 404 then ((RefreshResult.nil, "", none), w1)
      else ((RefreshResult.int 42, "", some err), w1)
    | _ => ((RefreshResult.int 42, "", some err), w1)
  | Except.ok resp =>
    if resp.Status = "FAILED" then
      ((RefreshResult.int 42, "",
        some (GoError.errorf (deletionFailedMessage env.isPrintTable name))), w1)
    else ((RefreshResult.function resp, resp.Status, none), w1)

/-- The `stateConf` of `resourceCloudFunctionDelete`. -/
def resourceCloudFunctionDelete_stateConf (env : Env) (config : Config) (name : String) :
    StateChangeConf :=
  { Target := []
    Pending := ["STATUS_UNSPECIFIED", "DEPLOYING", "DELETING"]
    Refresh := resourceCloudFunctionDelete_Refresh env config name }

def resourceCloudFunctionDelete (env : Env) (d : ResourceData) (config : Config) (w : World) :
    ResourceData × World × Option GoError :=
  let name := d.id
  let w1 := w ++ [Request.functionsDelete name]
  match config.clientFunctions.functionsDelete w name with
  | Except.error err => (d, w1, some err)
  | Except.ok _ =>
    let stateConf := resourceCloudFunctionDelete_stateConf env config name
    match stateConf.WaitForState env.pollBudget 0 w1 with
    | ((_, some err), w2) => (d, w2, some err)
    | ((_, none), w2) => (d, w2, none)

/-! ## Sample surroundings, used to instantiate the theorems -/

/-- Surroundings in which the project is the one of the provider configuration and a
not-found error clears the identifier. -/
def sampleEnv : Env :=
  { getProject := fun _ config => Except.ok config.Project
    handleNotFoundError := fun err d _ =>
      match err with
      | GoError.googleapi code _ _ =>
        if code = 404 then ({ d with id := "" }, none) else (d, some err)
      | _ => (d, some err)
    isPrintTable := fun _ => false
    pollBudget := 3 }

/-- A service on which every deployment ends in status `FAILED`, with a two-line reason. -/
def failedDeployClient : Client :=
  { functionsCreate := fun _ _ _ => Except.ok { Name := "operations/create-1" }
    functionsGet := fun _ name =>
      Except.ok { Name := name, Status := "FAILED", LatestOperation := "operations/create-1" }
    functionsUpdate := fun _ _ _ => Except.ok {}
    functionsDelete := fun _ _ => Except.ok {}
    operationsGet := fun _ name =>
      Except.ok { Name := name, Done := true,
                  Error := some { Code := 3, Message := "build failed:\nno index.js" } } }

/-- A provider configuration over `failedDeployClient`. -/
def failedDeployConfig : Config :=
  { Project := "p", Region := "us-central1", clientFunctions := failedDeployClient }

/-- A service on which every function is `READY` and echoes an entry point, an event
trigger without resource and an https trigger without url. -/
def readyClient : Client :=
  { functionsCreate := fun _ _ _ => Except.ok { Name := "operations/create-1" }
    functionsGet := fun _ name =>
      Except.ok { Name := name, Status := "READY", EntryPoint := "handler",
                  EventTrigger := some { EventType := "topic.publish" },
                  HttpsTrigger := some {} }
    functionsUpdate := fun _ _ _ => Except.ok {}
    functionsDelete := fun _ _ => Except.ok {}
    operationsGet := fun _ name => Except.ok { Name := name, Done := true } }

/-- A service on which a deleted function is gone at once. -/
def goneClient : Client :=
  { functionsCreate := fun _ _ _ => Except.ok { Name := "operations/create-1" }
    functionsGet := fun _ _ => Except.error (GoError.googleapi 404 "Not Found" "")
    functionsUpdate := fun _ _ _ => Except.ok {}
    functionsDelete := fun _ _ => Except.ok { Name := "operations/delete-1" }
    operationsGet := fun _ name => Except.ok { Name := name, Done := true } }

/-- A provider configuration over `goneClient`. -/
def goneConfig : Config :=
  { Project := "p", Region := "us-central1", clientFunctions := goneClient }

/-- A provider configuration over `readyClient`. -/
def readyConfig : Config :=
  { Project := "p", Region := "us-central1", clientFunctions := readyClient }

/-- A stored function with a deprecated entry point and a timeout. -/
def sampleData : ResourceData :=
  { id := "projects/p/locations/us-central1/functions/f", name := "f",
    entry_point := "main", timeout := "60s" }

/-- A configuration of the same function before it is created: no identifier yet. -/
def newData : ResourceData :=
  { name := "f", entry_point := "main", timeout := "60s" }

/-- The descriptor Create builds for `sampleData` and for `newData` in project `p`. -/
def sampleFunction : CloudFunction :=
  { Name := "projects/p/locations/us-central1/functions/f",
    EntryPoint := "main", Timeout := "60s" }

/-- The answer of `failedDeployClient` to a get call for `sampleFunction`. -/
def failedResponse : CloudFunction :=
  { Name := "projects/p/locations/us-central1/functions/f", Status := "FAILED",
    LatestOperation := "operations/create-1" }

/-- The answer of `failedDeployClient` to the lookup of the latest operation. -/
def failedOperation : Operation :=
  { Name := "operations/create-1", Done := true,
    Error := some { Code := 3, Message := "build failed:\nno index.js" } }

/-- The answer of `readyClient` to a get call for `sampleFunction`. -/
def readyResponse : CloudFunction :=
  { Name := "projects/p/locations/us-central1/functions/f", Status := "READY",
    EntryPoint := "handler", EventTrigger := some { EventType := "topic.publish" },
    HttpsTrigger := some {} }

/-- An identifier that contains a double quote. -/
def quotedName : String := String.mk ['f', 'n', dquote, '1']

/-! # Theorems -/

/-! ## Lemmas on blocks -/

/-- Removing the bindings of `k` leaves the binding of any other key as it was. -/
theorem Block.lookup_filter_ne (m : Block) (k k' : String) (h : k' ≠ k) :
    List.lookup k' (m.filter (fun p => p.1 != k)) = List.lookup k' m := by
  induction m with
  | nil => rfl
  | cons p t ih =>
    obtain ⟨a, b⟩ := p
    by_cases hak : a = k
    · subst hak
      have h1 : (k' == a) = false := by simpa using h
      simp [List.filter, List.lookup, h1, ih]
    · have h2 : (a != k) = true := by simpa using hak
      simp only [List.filter, h2, List.lookup]
      rw [ih]

/-- Reading after the map assignment `m[k] = v`. -/
theorem Block.lookup_set (m : Block) (k k' : String) (v : Value) :
    List.lookup k' (m.set k v) = if k' = k then some v else List.lookup k' m := by
  unfold Block.set
  by_cases h : k' = k
  · subst h; simp [List.lookup]
  · have h1 : (k' == k) = false := by simpa using h
    simp only [List.lookup, h1, if_neg h]
    exact Block.lookup_filter_ne m k k' h

/-- One guarded assignment `if s != "" { att[k] = s }` on a map that has no binding of `k`. -/
theorem flatten_step (att : Block) (k s : String) (f : String → Option Value)
    (h : ∀ k', List.lookup k' att = f k') (hfresh : f k = none) (k' : String) :
    List.lookup k' (if (s != "") = true then att.set k (Value.str s) else att)
      = if k' = k then optStr s else f k' := by
  by_cases hs : s = ""
  · subst hs
    by_cases hk : k' = k
    · subst hk; simp [optStr, h, hfresh]
    · simp [hk, h]
  · have hne : (s != "") = true := by simpa using hs
    simp [hne, Block.lookup_set, optStr, hs, h]

/-- The block `flattenFunctionEventTrigger` writes, key by key. -/
theorem flattenFunctionEventTrigger_some (x : EventTrigger) :
    ∃ att : Block, flattenFunctionEventTrigger (some x) = Except.ok [Value.map att] ∧
      ∀ k, List.lookup k att =
        if k = "resource" then optStr x.Resource
        else if k = "event_type" then optStr x.EventType
        else none := by
  refine ⟨_, rfl, ?_⟩
  have h0 : ∀ k, List.lookup k ([] : Block) = (fun _ => none) k := fun _ => rfl
  have h1 := flatten_step [] "event_type" x.EventType _ h0 rfl
  exact flatten_step _ "resource" x.Resource _ h1 (by simp)

/-- The block `flattenFunctionHttpsTrigger` writes, key by key. -/
theorem flattenFunctionHttpsTrigger_some (x : HTTPSTrigger) :
    ∃ att : Block, flattenFunctionHttpsTrigger (some x) = Except.ok [Value.map att] ∧
      ∀ k, List.lookup k att = if k = "url" then optStr x.Url else none := by
  refine ⟨_, rfl, ?_⟩
  have h0 : ∀ k, List.lookup k ([] : Block) = (fun _ => none) k := fun _ => rfl
  exact flatten_step [] "url" x.Url _ h0 rfl

/-- The block `flattenFunctionSourceRepository` writes, key by key. -/
theorem flattenFunctionSourceRepository_some (x : SourceRepository) :
    ∃ att : Block, flattenFunctionSourceRepository (some x) = Except.ok [Value.map att] ∧
      ∀ k, List.lookup k att =
        if k = "tag" then optStr x.Tag
        else if k = "source_path" then optStr x.SourcePath
        else if k = "revision" then optStr x.Revision
        else if k = "repository_url" then optStr x.RepositoryUrl
        else if k = "deployed_revision" then optStr x.DeployedRevision
        else if k = "branch" then optStr x.Branch
        else none := by
  refine ⟨_, rfl, ?_⟩
  have h0 : ∀ k, List.lookup k ([] : Block) = (fun _ => none) k := fun _ => rfl
  have h1 := flatten_step [] "branch" x.Branch _ h0 rfl
  have h2 := flatten_step _ "deployed_revision" x.DeployedRevision _ h1 (by simp)
  have h3 := flatten_step _ "repository_url" x.RepositoryUrl _ h2 (by simp)
  have h4 := flatten_step _ "revision" x.Revision _ h3 (by simp)
  have h5 := flatten_step _ "source_path" x.SourcePath _ h4 (by simp)
  exact flatten_step _ "tag" x.Tag _ h5 (by simp)

/-- The checked string assertion on `m[k]` yields the string at `k`. -/
theorem Block.assertString_index (m : Block) (k : String) :
    (m.index k).assertString = (m.stringAt k, true) ∨
    ((m.index k).assertString = ("", false) ∧ m.stringAt k = "") := by
  unfold Block.index Block.stringAt
  cases h : List.lookup k m with
  | none => simp [Value.assertString]
  | some v => cases v <;> simp [Value.assertString]

/-- A guarded field assignment `if v, ok := in[k].(string); ok { obj.F = v }` on a struct
whose field `F` is still empty stores the string found at `k`. -/
theorem guarded_assign {α : Type} (m : Block) (k : String) (upd : String → α) (o : α)
    (ho : upd "" = o) :
    (if ((m.index k).assertString).2 = true then upd ((m.index k).assertString).1 else o)
      = upd (m.stringAt k) := by
  rcases Block.assertString_index m k with e | ⟨e, h⟩
  · rw [e]; simp
  · rw [e, h]; simp [ho]

/-- The struct `expandFunctionEventTrigger` builds from a block. -/
theorem expandFunctionEventTrigger_map (m : Block) (rest : List Value) :
    expandFunctionEventTrigger (Value.map m :: rest)
      = Except.ok (some { EventType := m.stringAt "event_type",
                          Resource := m.stringAt "resource" }) := by
  unfold expandFunctionEventTrigger
  simp -zeta only [Value.isNil, Value.assertMap, Bool.false_eq_true, if_false]
  lift_lets
  intro obj r1 obj1 r2 obj2
  have h1 : obj1 = { EventType := m.stringAt "event_type" } :=
    guarded_assign m "event_type" (fun s => { obj with EventType := s }) obj rfl
  have h2 : obj2 = { EventType := m.stringAt "event_type",
                     Resource := m.stringAt "resource" } := by
    have h : obj2 = _ := guarded_assign m "resource" (fun s => { obj1 with Resource := s }) obj1
      (by rw [h1])
    rw [h, h1]
  rw [h2]

/-- The struct `expandFunctionHttpsTrigger` builds from a block. -/
theorem expandFunctionHttpsTrigger_map (m : Block) (rest : List Value) :
    expandFunctionHttpsTrigger (Value.map m :: rest)
      = Except.ok (some { Url := m.stringAt "url" }) := by
  unfold expandFunctionHttpsTrigger
  simp -zeta only [Value.isNil, Value.assertMap, Bool.false_eq_true, if_false]
  lift_lets
  intro obj r1 obj1
  have h1 : obj1 = { Url := m.stringAt "url" } :=
    guarded_assign m "url" (fun s => { obj with Url := s }) obj rfl
  rw [h1]

/-- The struct `expandFunctionSourceRepository` builds from a block. -/
theorem expandFunctionSourceRepository_map (m : Block) (rest : List Value) :
    expandFunctionSourceRepository (Value.map m :: rest)
      = Except.ok (some { Branch := m.stringAt "branch",
                          DeployedRevision := m.stringAt "deployed_revision",
                          RepositoryUrl := m.stringAt "repository_url",
                          Revision := m.stringAt "revision",
                          SourcePath := m.stringAt "source_path",
                          Tag := m.stringAt "tag" }) := by
  unfold expandFunctionSourceRepository
  simp -zeta only [Value.isNil, Value.assertMap, Bool.false_eq_true, if_false]
  lift_lets
  intro obj r1 obj1 r2 obj2 r3 obj3 r4 obj4 r5 obj5 r6 obj6
  have h1 : obj1 = { Branch := m.stringAt "branch" } :=
    guarded_assign m "branch" (fun s => { obj with Branch := s }) obj rfl
  have h2 : obj2 = { Branch := m.stringAt "branch",
                     DeployedRevision := m.stringAt "deployed_revision" } := by
    have h : obj2 = _ := guarded_assign m "deployed_revision"
      (fun s => { obj1 with DeployedRevision := s }) obj1
      (by rw [h1])
    rw [h, h1]
  have h3 : obj3 = { Branch := m.stringAt "branch",
                     DeployedRevision := m.stringAt "deployed_revision",
                     RepositoryUrl := m.stringAt "repository_url" } := by
    have h : obj3 = _ := guarded_assign m "repository_url"
      (fun s => { obj2 with RepositoryUrl := s }) obj2
      (by rw [h2])
    rw [h, h2]
  have h4 : obj4 = { Branch := m.stringAt "branch",
                     DeployedRevision := m.stringAt "deployed_revision",
                     RepositoryUrl := m.stringAt "repository_url",
                     Revision := m.stringAt "revision" } := by
    have h : obj4 = _ := guarded_assign m "revision"
      (fun s => { obj3 with Revision := s }) obj3
      (by rw [h3])
    rw [h, h3]
  have h5 : obj5 = { Branch := m.stringAt "branch",
                     DeployedRevision := m.stringAt "deployed_revision",
                     RepositoryUrl := m.stringAt "repository_url",
                     Revision := m.stringAt "revision",
                     SourcePath := m.stringAt "source_path" } := by
    have h : obj5 = _ := guarded_assign m "source_path"
      (fun s => { obj4 with SourcePath := s }) obj4
      (by rw [h4])
    rw [h, h4]
  have h6 : obj6 = { Branch := m.stringAt "branch",
                     DeployedRevision := m.stringAt "deployed_revision",
                     RepositoryUrl := m.stringAt "repository_url",
                     Revision := m.stringAt "revision",
                     SourcePath := m.stringAt "source_path",
                     Tag := m.stringAt "tag" } := by
    have h : obj6 = _ := guarded_assign m "tag"
      (fun s => { obj5 with Tag := s }) obj5
      (by rw [h5])
    rw [h, h5]
  rw [h6]

/-- A key bound as flatten binds it holds the string of its field. -/
theorem Block.stringAt_of_lookup (att : Block) (k s : String)
    (h : List.lookup k att = optStr s) : att.stringAt k = s := by
  unfold Block.stringAt
  rw [h]
  by_cases hs : s = "" <;> simp [optStr, hs]

/-- A flattened binding exists exactly for a non-empty field. -/
theorem optStr_eq_some_iff (s : String) (v : Value) :
    optStr s = some v ↔ s ≠ "" ∧ v = Value.str s := by
  unfold optStr
  by_cases hs : s = "" <;> simp [hs, eq_comm]

/-- The string at a key bound to a string. -/
theorem Block.stringAt_eq_of_lookup_str (m : Block) (k s : String)
    (h : List.lookup k m = some (Value.str s)) : m.stringAt k = s := by
  unfold Block.stringAt
  rw [h]

/-- A non-empty string at a key comes from a binding to that string. -/
theorem Block.lookup_of_stringAt_ne (m : Block) (k : String) (h : m.stringAt k ≠ "") :
    List.lookup k m = some (Value.str (m.stringAt k)) := by
  unfold Block.stringAt at h ⊢
  cases hl : List.lookup k m with
  | none => simp [hl] at h
  | some v => cases v <;> simp_all

/-- The two halves of the flatten-after-expand round trip, from the key-wise description
of the flattened block. -/
theorem roundtrip_of_lookup (keys : List String) (m att : Block) (f : String → Option Value)
    (hlook : ∀ k, List.lookup k att = f k)
    (hin : ∀ k, k ∈ keys → f k = optStr (m.stringAt k))
    (hout : ∀ k, k ∉ keys → f k = none) :
    (∀ k s, k ∈ keys → List.lookup k m = some (Value.str s) → s ≠ "" →
      List.lookup k att = some (Value.str s)) ∧
    (∀ k v, List.lookup k att = some v →
      k ∈ keys ∧ ∃ s, s ≠ "" ∧ v = Value.str s ∧ List.lookup k m = some (Value.str s)) := by
  constructor
  · intro k s hk hm hs
    rw [hlook, hin k hk, Block.stringAt_eq_of_lookup_str m k s hm]
    simp [optStr, hs]
  · intro k v hv
    by_cases hk : k ∈ keys
    · refine ⟨hk, ?_⟩
      rw [hlook, hin k hk, optStr_eq_some_iff] at hv
      exact ⟨m.stringAt k, hv.1, hv.2, Block.lookup_of_stringAt_ne m k hv.1⟩
    · rw [hlook, hout k hk] at hv
      cases hv

/-- A first element of a dynamic type the schema does not admit, neither nil nor a block,
makes the unchecked type assertion of expand panic. -/
theorem expand_other_dynamic_type (v : Value) (rest : List Value) (hnil : v ≠ Value.nil)
    (hmap : ∀ m, v ≠ Value.map m) :
    expandFunctionEventTrigger (v :: rest) = Except.error Panic.typeAssertion ∧
    expandFunctionHttpsTrigger (v :: rest) = Except.error Panic.typeAssertion ∧
    expandFunctionSourceRepository (v :: rest) = Except.error Panic.typeAssertion := by
  cases v with
  | nil => exact absurd rfl hnil
  | map m => exact absurd rfl (hmap m)
  | bool b => exact ⟨rfl, rfl, rfl⟩
  | int n => exact ⟨rfl, rfl, rfl⟩
  | str s => exact ⟨rfl, rfl, rfl⟩
  | list l => exact ⟨rfl, rfl, rfl⟩

/-- A list of at most one element that is nil or a block is `[]`, `[nil]` or `[m]`. -/
theorem schema_list_cases (l : List Value) (hlen : l.length ≤ 1)
    (hel : ∀ v ∈ l, v = Value.nil ∨ ∃ m, v = Value.map m) :
    l = [] ∨ l = [Value.nil] ∨ ∃ m, l = [Value.map m] := by
  match l, hlen, hel with
  | [], _, _ => exact Or.inl rfl
  | [v], _, hel =>
    rcases hel v (by simp) with rfl | ⟨m, rfl⟩
    · exact Or.inr (Or.inl rfl)
    · exact Or.inr (Or.inr ⟨m, rfl⟩)
  | _ :: _ :: _, hlen, _ => simp at hlen

/-! ## Lemmas on quoting -/

/-- A plain character is copied by `%q`. -/

theorem escapedRune_plain (tbl : Char → Bool) (c : Char) (h : plainRune tbl c = true) :
    escapedRune tbl c = [c] := by
  unfold plainRune at h
  simp only [Bool.and_eq_true, bne_iff_ne, ne_eq] at h
  obtain ⟨⟨hp, hq⟩, hb⟩ := h
  unfold escapedRune
  simp [hq, hb, hp]

/-- A string of plain characters is copied by `%q`. -/
theorem flatMap_escapedRune_plain (tbl : Char → Bool) (l : List Char)
    (h : ∀ c ∈ l, plainRune tbl c = true) : l.flatMap (escapedRune tbl) = l := by
  induction l with
  | nil => rfl
  | cons c t ih =>
    rw [List.flatMap_cons, escapedRune_plain tbl c (h c (by simp)),
      ih (fun x hx => h x (by simp [hx]))]
    rfl

/-- Quoting a string of plain characters only adds the two quotes. -/
theorem goQuote_plain (tbl : Char → Bool) (s : String)
    (h : ∀ c ∈ s.data, plainRune tbl c = true) :
    goQuote tbl s = String.mk (dquote :: (s.data ++ [dquote])) := by
  unfold goQuote
  rw [flatMap_escapedRune_plain tbl s.data h]

/-- A string ends with what was appended to it. -/
theorem containsSubstring_append_right (a b : String) : containsSubstring (a ++ b) b := by
  unfold containsSubstring
  rw [String.data_append]
  exact (List.suffix_append a.data b.data).isInfix

/-- Substrings of substrings are substrings. -/
theorem containsSubstring_trans (a b c : String) (h1 : containsSubstring a b)
    (h2 : containsSubstring b c) : containsSubstring a c := by
  unfold containsSubstring at *
  exact h2.trans h1

/-- The quoted form of a string of plain characters contains the string. -/
theorem containsSubstring_goQuote_plain (tbl : Char → Bool) (s : String)
    (h : ∀ c ∈ s.data, plainRune tbl c = true) : containsSubstring (goQuote tbl s) s := by
  rw [goQuote_plain tbl s h]
  unfold containsSubstring
  exact ⟨[dquote], [dquote], by simp⟩

/-! ## Lemmas on waiting -/

/-- After any number of pending status queries, a status query that returns an error
ends the wait with that error, provided the budget allows the query. -/
theorem WaitForState_refresh_error (conf : StateChangeConf) (k b : Nat) :
    ∀ (t : Nat) (w w' w'' : World) (res : RefreshResult) (st : String) (e : GoError),
      conf.pendingPolls k w = some w' →
      conf.Refresh w' = ((res, st, some e), w'') →
      conf.WaitForState (k + b + 1) t w = ((res, some e), w'') := by
  induction k with
  | zero =>
    intro t w w' w'' res st e hk hr
    simp only [StateChangeConf.pendingPolls, Option.some.injEq] at hk
    subst hk
    rw [show 0 + b + 1 = b + 1 by omega]
    unfold StateChangeConf.WaitForState
    rw [hr]
    cases res <;> rfl
  | succ k ih =>
    intro t w w' w'' res st e hk hr
    rw [show k + 1 + b + 1 = (k + b + 1) + 1 by omega]
    unfold StateChangeConf.pendingPolls at hk
    unfold StateChangeConf.WaitForState
    split at hk
    · rename_i r cs w1 heq
      split at hk
      · rename_i hcs
        rw [heq]
        simp only [hcs.1, hcs.2, if_false, if_true]
        exact ih 0 w1 w' w'' res st e hk hr
      · cases hk
    · cases hk

/-! ## Lemmas on the handlers -/

/-- The guard `GetOk` adds nothing to expand: on the empty list expand returns nil. -/
theorem guarded_expand_eventTrigger (l : List Value) :
    (if l.isEmpty = true then Except.ok none else expandFunctionEventTrigger l)
      = expandFunctionEventTrigger l := by
  cases l <;> rfl

/-- The same for `expandFunctionHttpsTrigger`. -/
theorem guarded_expand_httpsTrigger (l : List Value) :
    (if l.isEmpty = true then Except.ok none else expandFunctionHttpsTrigger l)
      = expandFunctionHttpsTrigger l := by
  cases l <;> rfl

/-- The same for `expandFunctionSourceRepository`. -/
theorem guarded_expand_sourceRepository (l : List Value) :
    (if l.isEmpty = true then Except.ok none else expandFunctionSourceRepository l)
      = expandFunctionSourceRepository l := by
  cases l <;> rfl

/-- The descriptor in closed form: every scalar field is copied (an unset field is the zero
value on both sides) and every block is expanded. -/
theorem resourceCloudFunctionCreate_function_eq (d : ResourceData) (id : String) :
    resourceCloudFunctionCreate_function d id =
      match expandFunctionEventTrigger d.event_trigger with
      | Except.error p => Except.error p
      | Except.ok v1 =>
        match expandFunctionHttpsTrigger d.https_trigger with
        | Except.error p => Except.error p
        | Except.ok v2 =>
          match expandFunctionSourceRepository d.source_repository with
          | Except.error p => Except.error p
          | Except.ok v3 =>
            Except.ok { Name := id, AvailableMemoryMb := d.available_memory_mb,
                        EntryPoint := d.entry_point,
                        SourceArchiveUrl := d.source_archive_url, Timeout := d.timeout,
                        EventTrigger := v1, HttpsTrigger := v2, SourceRepository := v3 } := by
  unfold resourceCloudFunctionCreate_function
  lift_lets
  intro f0 f1 f2 f3 f4
  have h1 : f1 = { Name := id, AvailableMemoryMb := d.available_memory_mb } := by
    by_cases c : d.available_memory_mb = 0
    · simp only [f1, f0, c, ne_eq, not_true_eq_false, if_false]
    · simp only [f1, f0, c, ne_eq, not_false_eq_true, if_true]
  have h2 : f2 = { Name := id, AvailableMemoryMb := d.available_memory_mb,
                   EntryPoint := d.entry_point } := by
    by_cases c : d.entry_point = ""
    · simp only [f2, h1, c, ne_eq, not_true_eq_false, if_false]
    · simp only [f2, h1, c, ne_eq, not_false_eq_true, if_true]
  have h3 : f3 = { Name := id, AvailableMemoryMb := d.available_memory_mb,
                   EntryPoint := d.entry_point,
                   SourceArchiveUrl := d.source_archive_url } := by
    by_cases c : d.source_archive_url = ""
    · simp only [f3, h2, c, ne_eq, not_true_eq_false, if_false]
    · simp only [f3, h2, c, ne_eq, not_false_eq_true, if_true]
  have h4 : f4 = { Name := id, AvailableMemoryMb := d.available_memory_mb,
                   EntryPoint := d.entry_point,
                   SourceArchiveUrl := d.source_archive_url, Timeout := d.timeout } := by
    by_cases c : d.timeout = ""
    · simp only [f4, h3, c, ne_eq, not_true_eq_false, if_false]
    · simp only [f4, h3, c, ne_eq, not_false_eq_true, if_true]
  clear_value f4
  subst h4
  simp only [guarded_expand_eventTrigger, guarded_expand_httpsTrigger,
    guarded_expand_sourceRepository]

/-- The descriptor carries the identifier as its name. -/
theorem resourceCloudFunctionCreate_function_name (d : ResourceData) (id : String)
    (fn : CloudFunction) (h : resourceCloudFunctionCreate_function d id = Except.ok fn) :
    fn.Name = id := by
  rw [resourceCloudFunctionCreate_function_eq] at h
  cases h1 : expandFunctionEventTrigger d.event_trigger with
  | error p => simp [h1] at h
  | ok v1 =>
    cases h2 : expandFunctionHttpsTrigger d.https_trigger with
    | error p => simp [h1, h2] at h
    | ok v2 =>
      cases h3 : expandFunctionSourceRepository d.source_repository with
      | error p => simp [h1, h2, h3] at h
      | ok v3 =>
        simp only [h1, h2, h3, Except.ok.injEq] at h
        rw [← h]

/-- A block is empty exactly when it binds no key. -/
theorem Block.isEmpty_iff_lookup (m : Block) :
    m.isEmpty = true ↔ ∀ k, List.lookup k m = none := by
  cases m with
  | nil => simp
  | cons p t =>
    obtain ⟨a, b⟩ := p
    simp only [List.isEmpty_cons, Bool.false_eq_true, false_iff, not_forall]
    exact ⟨a, by simp [List.lookup]⟩

/-- A guarded assignment of a string under a schema key keeps a block storable. -/
theorem storableBlock_guarded_set (keys : List String) (att : Block) (k s : String)
    (hk : keys.contains k = true) (h : storableBlock keys att = true) :
    storableBlock keys (if (s != "") = true then att.set k (Value.str s) else att) = true := by
  by_cases hs : (s != "") = true
  · rw [if_pos hs]
    unfold storableBlock Block.set at *
    rw [List.all_cons]
    simp only [hk, Bool.and_self, Bool.true_and]
    rw [List.all_eq_true] at h ⊢
    intro p hp
    exact h p (List.mem_of_mem_filter hp)
  · rw [if_neg hs]
    exact h

/-- The block `flattenFunctionEventTrigger` writes is one the field writer accepts. -/
theorem storable_flattenEventTrigger (x : EventTrigger) (att : Block)
    (h : flattenFunctionEventTrigger (some x) = Except.ok [Value.map att]) :
    storableBlock eventTriggerKeys att = true := by
  simp only [flattenFunctionEventTrigger, Except.ok.injEq, List.cons.injEq, Value.map.injEq,
    and_true] at h
  subst h
  exact storableBlock_guarded_set _ _ _ _ (by decide)
    (storableBlock_guarded_set _ _ _ _ (by decide) rfl)

/-- The block `flattenFunctionHttpsTrigger` writes is one the field writer accepts. -/
theorem storable_flattenHttpsTrigger (x : HTTPSTrigger) (att : Block)
    (h : flattenFunctionHttpsTrigger (some x) = Except.ok [Value.map att]) :
    storableBlock httpsTriggerKeys att = true := by
  simp only [flattenFunctionHttpsTrigger, Except.ok.injEq, List.cons.injEq, Value.map.injEq,
    and_true] at h
  subst h
  exact storableBlock_guarded_set _ _ _ _ (by decide) rfl

/-- The block `flattenFunctionSourceRepository` writes is one the field writer accepts. -/
theorem storable_flattenSourceRepository (x : SourceRepository) (att : Block)
    (h : flattenFunctionSourceRepository (some x) = Except.ok [Value.map att]) :
    storableBlock sourceRepositoryKeys att = true := by
  simp only [flattenFunctionSourceRepository, Except.ok.injEq, List.cons.injEq,
    Value.map.injEq, and_true] at h
  subst h
  exact storableBlock_guarded_set _ _ _ _ (by decide)
    (storableBlock_guarded_set _ _ _ _ (by decide)
      (storableBlock_guarded_set _ _ _ _ (by decide)
        (storableBlock_guarded_set _ _ _ _ (by decide)
          (storableBlock_guarded_set _ _ _ _ (by decide)
            (storableBlock_guarded_set _ _ _ _ (by decide) rfl)))))

/-- Storing a one-block list the writer accepts. -/
theorem setBlocks_storable (keys : List String) (old : List Value) (att : Block)
    (h : storableBlock keys att = true) :
    ResourceData.setBlocks keys old [Value.map att]
      = [if att.isEmpty then Value.nil
         else Value.map (keys.map (fun k => (k, Value.str (att.stringAt k))))] := by
  simp [ResourceData.setBlocks, storableElement, storedElement, h]

/-- The event trigger block as Read stores it. -/
theorem setBlocks_flattenEventTrigger (old : List Value) (x : EventTrigger) :
    (flattenFunctionEventTrigger (some x)).map
        (ResourceData.setBlocks eventTriggerKeys old)
      = Except.ok
          [if x.EventType = "" ∧ x.Resource = "" then Value.nil
           else Value.map [("event_type", Value.str x.EventType),
                           ("resource", Value.str x.Resource)]] := by
  obtain ⟨att, hfl, hlook⟩ := flattenFunctionEventTrigger_some x
  rw [hfl]
  show Except.ok (ResourceData.setBlocks eventTriggerKeys old [Value.map att]) = _
  rw [setBlocks_storable _ _ _ (storable_flattenEventTrigger x att hfl)]
  have he : (att.isEmpty = true) ↔ (x.EventType = "" ∧ x.Resource = "") := by
    rw [Block.isEmpty_iff_lookup]
    constructor
    · intro h
      have h1 := h "event_type"
      have h2 := h "resource"
      rw [hlook] at h1 h2
      simp [optStr] at h1 h2
      exact ⟨h1, h2⟩
    · rintro ⟨h1, h2⟩ k
      rw [hlook]
      simp [optStr, h1, h2]
  simp only [he, eventTriggerKeys, List.map_cons, List.map_nil,
    Block.stringAt_of_lookup att "event_type" x.EventType (by rw [hlook]; simp),
    Block.stringAt_of_lookup att "resource" x.Resource (by rw [hlook]; simp)]

/-- The https trigger block as Read stores it. -/
theorem setBlocks_flattenHttpsTrigger (old : List Value) (x : HTTPSTrigger) :
    (flattenFunctionHttpsTrigger (some x)).map
        (ResourceData.setBlocks httpsTriggerKeys old)
      = Except.ok
          [if x.Url = "" then Value.nil else Value.map [("url", Value.str x.Url)]] := by
  obtain ⟨att, hfl, hlook⟩ := flattenFunctionHttpsTrigger_some x
  rw [hfl]
  show Except.ok (ResourceData.setBlocks httpsTriggerKeys old [Value.map att]) = _
  rw [setBlocks_storable _ _ _ (storable_flattenHttpsTrigger x att hfl)]
  have he : (att.isEmpty = true) ↔ (x.Url = "") := by
    rw [Block.isEmpty_iff_lookup]
    constructor
    · intro h
      have h1 := h "url"
      rw [hlook] at h1
      simp [optStr] at h1
      exact h1
    · intro h1 k
      rw [hlook]
      simp [optStr, h1]
  simp only [he, httpsTriggerKeys, List.map_cons, List.map_nil,
    Block.stringAt_of_lookup att "url" x.Url (by rw [hlook]; simp)]

/-- The source repository block as Read stores it. -/
theorem setBlocks_flattenSourceRepository (old : List Value) (x : SourceRepository) :
    (flattenFunctionSourceRepository (some x)).map
        (ResourceData.setBlocks sourceRepositoryKeys old)
      = Except.ok
          [if x.Branch = "" ∧ x.DeployedRevision = "" ∧ x.RepositoryUrl = "" ∧
              x.Revision = "" ∧ x.SourcePath = "" ∧ x.Tag = "" then Value.nil
           else Value.map [("branch", Value.str x.Branch),
                           ("deployed_revision", Value.str x.DeployedRevision),
                           ("repository_url", Value.str x.RepositoryUrl),
                           ("revision", Value.str x.Revision),
                           ("source_path", Value.str x.SourcePath),
                           ("tag", Value.str x.Tag)]] := by
  obtain ⟨att, hfl, hlook⟩ := flattenFunctionSourceRepository_some x
  rw [hfl]
  show Except.ok (ResourceData.setBlocks sourceRepositoryKeys old [Value.map att]) = _
  rw [setBlocks_storable _ _ _ (storable_flattenSourceRepository x att hfl)]
  have he : (att.isEmpty = true) ↔
      (x.Branch = "" ∧ x.DeployedRevision = "" ∧ x.RepositoryUrl = "" ∧
        x.Revision = "" ∧ x.SourcePath = "" ∧ x.Tag = "") := by
    rw [Block.isEmpty_iff_lookup]
    constructor
    · intro h
      have h1 := h "branch"
      have h2 := h "deployed_revision"
      have h3 := h "repository_url"
      have h4 := h "revision"
      have h5 := h "source_path"
      have h6 := h "tag"
      rw [hlook] at h1 h2 h3 h4 h5 h6
      simp [optStr] at h1 h2 h3 h4 h5 h6
      exact ⟨h1, h2, h3, h4, h5, h6⟩
    · rintro ⟨h1, h2, h3, h4, h5, h6⟩ k
      rw [hlook]
      simp [optStr, h1, h2, h3, h4, h5, h6]
  simp only [he, sourceRepositoryKeys, List.map_cons, List.map_nil,
    Block.stringAt_of_lookup att "branch" x.Branch (by rw [hlook]; simp),
    Block.stringAt_of_lookup att "deployed_revision" x.DeployedRevision
      (by rw [hlook]; simp),
    Block.stringAt_of_lookup att "repository_url" x.RepositoryUrl (by rw [hlook]; simp),
    Block.stringAt_of_lookup att "revision" x.Revision (by rw [hlook]; simp),
    Block.stringAt_of_lookup att "source_path" x.SourcePath (by rw [hlook]; simp),
    Block.stringAt_of_lookup att "tag" x.Tag (by rw [hlook]; simp)]


/-- What `resourceCloudFunctionRead` does when its get call succeeds. -/
theorem resourceCloudFunctionRead_of_get_ok (env : Env) (d : ResourceData) (config : Config)
    (w : World) (resp : CloudFunction)
    (hget : config.clientFunctions.functionsGet w d.id = Except.ok resp) :
    ∃ d', resourceCloudFunctionRead env d config w
        = Except.ok (d', w ++ [Request.functionsGet d.id], none) ∧
      d'.available_memory_mb
        = (if resp.AvailableMemoryMb = 0 then d.available_memory_mb
           else resp.AvailableMemoryMb) ∧
      d'.entry_point = (if resp.EntryPoint = "" then d.entry_point else resp.EntryPoint) ∧
      d'.source_archive_url
        = (if resp.SourceArchiveUrl = "" then d.source_archive_url
           else resp.SourceArchiveUrl) ∧
      d'.timeout = (if resp.Timeout = "" then d.timeout else resp.Timeout) ∧
      d'.event_trigger
        = (match resp.EventTrigger with
           | some x =>
             [if x.EventType = "" ∧ x.Resource = "" then Value.nil
              else Value.map [("event_type", Value.str x.EventType),
                              ("resource", Value.str x.Resource)]]
           | none => d.event_trigger) ∧
      d'.https_trigger
        = (match resp.HttpsTrigger with
           | some x => [if x.Url = "" then Value.nil else Value.map [("url", Value.str x.Url)]]
           | none => d.https_trigger) ∧
      d'.source_repository
        = (match resp.SourceRepository with
           | some x =>
             [if x.Branch = "" ∧ x.DeployedRevision = "" ∧ x.RepositoryUrl = "" ∧
                 x.Revision = "" ∧ x.SourcePath = "" ∧ x.Tag = "" then Value.nil
              else Value.map [("branch", Value.str x.Branch),
                              ("deployed_revision", Value.str x.DeployedRevision),
                              ("repository_url", Value.str x.RepositoryUrl),
                              ("revision", Value.str x.Revision),
                              ("source_path", Value.str x.SourcePath),
                              ("tag", Value.str x.Tag)]]
           | none => d.source_repository) ∧
      d'.name = d.name ∧ d'.location = d.location ∧
      d'.service_account = d.service_account ∧ d'.id = d.id := by
  simp only [resourceCloudFunctionRead, hget]
  obtain ⟨mem, ep, et, ht, lo, nm, sa, sau, sr, st, tmo, ut⟩ := resp
  cases et <;> cases ht <;> cases sr <;>
  by_cases h1 : mem = 0 <;> by_cases h2 : ep = "" <;> by_cases h3 : sau = "" <;>
  by_cases h4 : tmo = "" <;>
  simp [h1, h2, h3, h4, setBlocks_flattenEventTrigger, setBlocks_flattenHttpsTrigger,
    setBlocks_flattenSourceRepository]

/-- The run of `resourceCloudFunctionCreate` after a successful creation call. -/
theorem resourceCloudFunctionCreate_after_call (env : Env) (d : ResourceData) (config : Config)
    (w : World) (p : String) (fn : CloudFunction) (op : Operation)
    (hp : env.getProject d config = Except.ok p)
    (hfn : resourceCloudFunctionCreate_function d
      ("projects/" ++ p ++ "/locations/"
        ++ (if d.location ≠ "" then d.location else config.Region)
        ++ "/functions/" ++ d.name) = Except.ok fn)
    (hcall : config.clientFunctions.functionsCreate w
      ("projects/" ++ p ++ "/locations/"
        ++ (if d.location ≠ "" then d.location else config.Region)) fn = Except.ok op) :
    resourceCloudFunctionCreate env d config w =
      match (resourceCloudFunctionCreate_stateConf env config fn d.name).WaitForState
          env.pollBudget 0
          (w ++ [Request.functionsCreate ("projects/" ++ p ++ "/locations/"
            ++ (if d.location ≠ "" then d.location else config.Region)) fn]) with
      | ((_, some err), w2) => Except.ok ({ d with id := fn.Name }, w2, some err)
      | ((_, none), w2) => resourceCloudFunctionRead env { d with id := fn.Name } config w2 := by
  simp only [resourceCloudFunctionCreate, hp, hfn, hcall]

/-- Create status query on status `FAILED` with a successful operation lookup. -/
theorem createRefresh_failed (env : Env) (config : Config) (fn : CloudFunction)
    (name : String) (w : World) (resp : CloudFunction) (out : Operation)
    (hget : config.clientFunctions.functionsGet w fn.Name = Except.ok resp)
    (hst : resp.Status = "FAILED")
    (hop : config.clientFunctions.operationsGet (w ++ [Request.functionsGet fn.Name])
      resp.LatestOperation = Except.ok out) :
    resourceCloudFunctionCreate_Refresh env config fn name w
      = ((RefreshResult.int 42, "FAILED",
          some (GoError.errorf
            ("Deploying cloud function " ++ goQuote env.isPrintTable name ++ " failed: "
              ++ goQuote env.isPrintTable
                (match out.Error with
                 | some e => e.Message
                 | none => "")))),
         w ++ [Request.functionsGet fn.Name] ++ [Request.operationsGet resp.LatestOperation]) := by
  simp only [resourceCloudFunctionCreate_Refresh, hget, hst, hop, if_true, deployFailedMessage]

/-- Create status query on status `FAILED` with a failing operation lookup. -/
theorem createRefresh_lookup_error (env : Env) (config : Config) (fn : CloudFunction)
    (name : String) (w : World) (resp : CloudFunction) (e : GoError)
    (hget : config.clientFunctions.functionsGet w fn.Name = Except.ok resp)
    (hst : resp.Status = "FAILED")
    (hop : config.clientFunctions.operationsGet (w ++ [Request.functionsGet fn.Name])
      resp.LatestOperation = Except.error e) :
    resourceCloudFunctionCreate_Refresh env config fn name w
      = ((RefreshResult.int 42, "", some e),
         w ++ [Request.functionsGet fn.Name] ++ [Request.operationsGet resp.LatestOperation]) := by
  simp only [resourceCloudFunctionCreate_Refresh, hget, hst, hop, if_true]

/-- Create returns the error of a status query that fails after `k` pending ones. -/
theorem resourceCloudFunctionCreate_poll_error (env : Env) (d : ResourceData) (config : Config)
    (w : World) (p : String) (fn : CloudFunction) (op : Operation) (k : Nat)
    (w' w'' : World) (res : RefreshResult) (st : String) (e : GoError)
    (hp : env.getProject d config = Except.ok p)
    (hfn : resourceCloudFunctionCreate_function d
      ("projects/" ++ p ++ "/locations/"
        ++ (if d.location ≠ "" then d.location else config.Region)
        ++ "/functions/" ++ d.name) = Except.ok fn)
    (hcall : config.clientFunctions.functionsCreate w
      ("projects/" ++ p ++ "/locations/"
        ++ (if d.location ≠ "" then d.location else config.Region)) fn = Except.ok op)
    (hpoll : (resourceCloudFunctionCreate_stateConf env config fn d.name).pendingPolls k
      (w ++ [Request.functionsCreate ("projects/" ++ p ++ "/locations/"
        ++ (if d.location ≠ "" then d.location else config.Region)) fn]) = some w')
    (hk : k < env.pollBudget)
    (hr : resourceCloudFunctionCreate_Refresh env config fn d.name w'
      = ((res, st, some e), w'')) :
    resourceCloudFunctionCreate env d config w
      = Except.ok ({ d with id := fn.Name }, w'', some e) := by
  have hrun := resourceCloudFunctionCreate_after_call env d config w p fn op hp hfn hcall
  obtain ⟨b, hb⟩ : ∃ b, env.pollBudget = k + b + 1 := ⟨env.pollBudget - k - 1, by omega⟩
  have hwait := WaitForState_refresh_error
    (resourceCloudFunctionCreate_stateConf env config fn d.name) k b 0 _ w' w'' res st e
    hpoll hr
  rw [← hb] at hwait
  rw [hrun, hwait]

/-- Delete status query: a 404 from the get call is the absent result, without error. -/
theorem deleteRefresh_notFound (env : Env) (config : Config) (n : String) (w : World)
    (msg body : String)
    (h : config.clientFunctions.functionsGet w n
      = Except.error (GoError.googleapi 404 msg body)) :
    resourceCloudFunctionDelete_Refresh env config n w
      = ((RefreshResult.nil, "", none), w ++ [Request.functionsGet n]) := by
  simp [resourceCloudFunctionDelete_Refresh, h]

/-- Delete status query: any other error of the get call is returned as it is. -/
theorem deleteRefresh_error (env : Env) (config : Config) (n : String) (w : World)
    (err : GoError) (h : config.clientFunctions.functionsGet w n = Except.error err)
    (hne : ∀ msg body, err ≠ GoError.googleapi 404 msg body) :
    resourceCloudFunctionDelete_Refresh env config n w
      = ((RefreshResult.int 42, "", some err), w ++ [Request.functionsGet n]) := by
  simp only [resourceCloudFunctionDelete_Refresh, h]
  cases err with
  | googleapi code m b =>
    by_cases hc : code = 404
    · subst hc; exact absurd rfl (hne m b)
    · simp [hc]
  | _ => rfl

/-- Delete status query: status `FAILED` is an error naming the function. -/
theorem deleteRefresh_failed (env : Env) (config : Config) (n : String) (w : World)
    (resp : CloudFunction) (h : config.clientFunctions.functionsGet w n = Except.ok resp)
    (hst : resp.Status = "FAILED") :
    resourceCloudFunctionDelete_Refresh env config n w
      = ((RefreshResult.int 42, "",
          some (GoError.errorf
            ("Deletion of function " ++ goQuote env.isPrintTable n ++ " failed."))),
         w ++ [Request.functionsGet n]) := by
  simp [resourceCloudFunctionDelete_Refresh, h, hst, deletionFailedMessage]

/-- Delete status query: any other status is returned with the response. -/
theorem deleteRefresh_status (env : Env) (config : Config) (n : String) (w : World)
    (resp : CloudFunction) (h : config.clientFunctions.functionsGet w n = Except.ok resp)
    (hst : resp.Status ≠ "FAILED") :
    resourceCloudFunctionDelete_Refresh env config n w
      = ((RefreshResult.function resp, resp.Status, none),
         w ++ [Request.functionsGet n]) := by
  simp [resourceCloudFunctionDelete_Refresh, h, hst]

/-! ## The claims -/

/-- C1: expand after flatten is the identity on non-nil structs. For every `EventTrigger`,
`HTTPSTrigger` and `SourceRepository` value `x`, flattening a pointer to `x` and expanding
the resulting list returns, without panic, a non-nil struct equal to `x`, hence equal on
every schema-mapped string field, the empty ones included. -/
theorem expand_flatten_roundtrip :
    (∀ x : EventTrigger,
      (flattenFunctionEventTrigger (some x)).bind expandFunctionEventTrigger
        = Except.ok (some x)) ∧
    (∀ x : HTTPSTrigger,
      (flattenFunctionHttpsTrigger (some x)).bind expandFunctionHttpsTrigger
        = Except.ok (some x)) ∧
    (∀ x : SourceRepository,
      (flattenFunctionSourceRepository (some x)).bind expandFunctionSourceRepository
        = Except.ok (some x)) := by
  refine ⟨fun x => ?_, fun x => ?_, fun x => ?_⟩
  · obtain ⟨att, hfl, hlook⟩ := flattenFunctionEventTrigger_some x
    rw [hfl]
    show expandFunctionEventTrigger [Value.map att] = _
    rw [expandFunctionEventTrigger_map,
      Block.stringAt_of_lookup att "event_type" x.EventType (by rw [hlook]; simp),
      Block.stringAt_of_lookup att "resource" x.Resource (by rw [hlook]; simp)]
  · obtain ⟨att, hfl, hlook⟩ := flattenFunctionHttpsTrigger_some x
    rw [hfl]
    show expandFunctionHttpsTrigger [Value.map att] = _
    rw [expandFunctionHttpsTrigger_map,
      Block.stringAt_of_lookup att "url" x.Url (by rw [hlook]; simp)]
  · obtain ⟨att, hfl, hlook⟩ := flattenFunctionSourceRepository_some x
    rw [hfl]
    show expandFunctionSourceRepository [Value.map att] = _
    rw [expandFunctionSourceRepository_map,
      Block.stringAt_of_lookup att "branch" x.Branch (by rw [hlook]; simp),
      Block.stringAt_of_lookup att "deployed_revision" x.DeployedRevision
        (by rw [hlook]; simp),
      Block.stringAt_of_lookup att "repository_url" x.RepositoryUrl (by rw [hlook]; simp),
      Block.stringAt_of_lookup att "revision" x.Revision (by rw [hlook]; simp),
      Block.stringAt_of_lookup att "source_path" x.SourcePath (by rw [hlook]; simp),
      Block.stringAt_of_lookup att "tag" x.Tag (by rw [hlook]; simp)]

/-- C2: flatten after expand keeps exactly the non-empty string fields. For every block
`m`, expanding the one-element list `[m]` and flattening the result gives a one-element list
whose block `att` binds every schema key that `m` binds to a non-empty string to that same
string, and every binding of `att` is such a one: its key is a schema key and its value is
the non-empty string `m` binds to it. -/
theorem flatten_expand_roundtrip (m : Block) :
    (∃ att : Block,
      (expandFunctionEventTrigger [Value.map m]).bind flattenFunctionEventTrigger
        = Except.ok [Value.map att] ∧
      (∀ k s, k ∈ eventTriggerKeys → List.lookup k m = some (Value.str s) → s ≠ "" →
        List.lookup k att = some (Value.str s)) ∧
      (∀ k v, List.lookup k att = some v →
        k ∈ eventTriggerKeys ∧
          ∃ s, s ≠ "" ∧ v = Value.str s ∧ List.lookup k m = some (Value.str s))) ∧
    (∃ att : Block,
      (expandFunctionHttpsTrigger [Value.map m]).bind flattenFunctionHttpsTrigger
        = Except.ok [Value.map att] ∧
      (∀ k s, k ∈ httpsTriggerKeys → List.lookup k m = some (Value.str s) → s ≠ "" →
        List.lookup k att = some (Value.str s)) ∧
      (∀ k v, List.lookup k att = some v →
        k ∈ httpsTriggerKeys ∧
          ∃ s, s ≠ "" ∧ v = Value.str s ∧ List.lookup k m = some (Value.str s))) ∧
    (∃ att : Block,
      (expandFunctionSourceRepository [Value.map m]).bind flattenFunctionSourceRepository
        = Except.ok [Value.map att] ∧
      (∀ k s, k ∈ sourceRepositoryKeys → List.lookup k m = some (Value.str s) → s ≠ "" →
        List.lookup k att = some (Value.str s)) ∧
      (∀ k v, List.lookup k att = some v →
        k ∈ sourceRepositoryKeys ∧
          ∃ s, s ≠ "" ∧ v = Value.str s ∧ List.lookup k m = some (Value.str s))) := by
  refine ⟨?_, ?_, ?_⟩
  · rw [expandFunctionEventTrigger_map]
    obtain ⟨att, hfl, hlook⟩ := flattenFunctionEventTrigger_some
      { EventType := m.stringAt "event_type", Resource := m.stringAt "resource" }
    refine ⟨att, hfl, roundtrip_of_lookup eventTriggerKeys m att _ hlook ?_ ?_⟩
    · intro k hk
      simp only [eventTriggerKeys, List.mem_cons, List.mem_singleton, List.mem_nil_iff,
        or_false] at hk
      rcases hk with rfl | rfl <;> simp
    · intro k hk
      simp only [eventTriggerKeys, List.mem_cons, List.mem_singleton, List.mem_nil_iff,
        or_false, not_or] at hk
      simp [hk]
  · rw [expandFunctionHttpsTrigger_map]
    obtain ⟨att, hfl, hlook⟩ := flattenFunctionHttpsTrigger_some { Url := m.stringAt "url" }
    refine ⟨att, hfl, roundtrip_of_lookup httpsTriggerKeys m att _ hlook ?_ ?_⟩
    · intro k hk
      simp only [httpsTriggerKeys, List.mem_cons, List.mem_singleton, List.mem_nil_iff,
        or_false] at hk
      rcases hk with rfl; simp
    · intro k hk
      simp only [httpsTriggerKeys, List.mem_cons, List.mem_singleton, List.mem_nil_iff,
        or_false, not_or] at hk
      simp [hk]
  · rw [expandFunctionSourceRepository_map]
    obtain ⟨att, hfl, hlook⟩ := flattenFunctionSourceRepository_some
      { Branch := m.stringAt "branch",
        DeployedRevision := m.stringAt "deployed_revision",
        RepositoryUrl := m.stringAt "repository_url",
        Revision := m.stringAt "revision",
        SourcePath := m.stringAt "source_path",
        Tag := m.stringAt "tag" }
    refine ⟨att, hfl, roundtrip_of_lookup sourceRepositoryKeys m att _ hlook ?_ ?_⟩
    · intro k hk
      simp only [sourceRepositoryKeys, List.mem_cons, List.mem_singleton, List.mem_nil_iff,
        or_false] at hk
      rcases hk with rfl | rfl | rfl | rfl | rfl | rfl <;> simp
    · intro k hk
      simp only [sourceRepositoryKeys, List.mem_cons, List.mem_singleton, List.mem_nil_iff,
        or_false, not_or] at hk
      simp [hk]

/-- C3, counterexample: the empty list is schema-valid, expand returns nil on it, and
flatten applied to that nil pointer dereferences it: flatten after expand panics. -/
theorem flatten_of_expand_empty_panics :
    ((([] : List Value).length ≤ 1 ∧
      ∀ v ∈ ([] : List Value), v = Value.nil ∨ ∃ m, v = Value.map m)) ∧
    (expandFunctionEventTrigger []).bind flattenFunctionEventTrigger
      = Except.error Panic.nilDereference ∧
    (expandFunctionHttpsTrigger []).bind flattenFunctionHttpsTrigger
      = Except.error Panic.nilDereference ∧
    (expandFunctionSourceRepository []).bind flattenFunctionSourceRepository
      = Except.error Panic.nilDereference :=
  ⟨⟨by simp, by simp⟩, rfl, rfl, rfl⟩

/-- C3, amended: on a list of at most one element that is nil or a block, every expand
function returns without panic; its result is non-nil exactly when the list holds a block,
and then the matching flatten function returns a one-block list without panic; on the empty
list and on `[nil]` expand returns nil, on which flatten panics with a nil dereference. -/
theorem expand_safe_flatten_needs_block (l : List Value) (hlen : l.length ≤ 1)
    (hel : ∀ v ∈ l, v = Value.nil ∨ ∃ m, v = Value.map m) :
    (∃ r, expandFunctionEventTrigger l = Except.ok r ∧
      (r.isSome = true ↔ ∃ m, l = [Value.map m]) ∧
      (r.isSome = true → ∃ att : Block, flattenFunctionEventTrigger r = Except.ok [Value.map att]) ∧
      (r = none → flattenFunctionEventTrigger r = Except.error Panic.nilDereference)) ∧
    (∃ r, expandFunctionHttpsTrigger l = Except.ok r ∧
      (r.isSome = true ↔ ∃ m, l = [Value.map m]) ∧
      (r.isSome = true → ∃ att : Block, flattenFunctionHttpsTrigger r = Except.ok [Value.map att]) ∧
      (r = none → flattenFunctionHttpsTrigger r = Except.error Panic.nilDereference)) ∧
    (∃ r, expandFunctionSourceRepository l = Except.ok r ∧
      (r.isSome = true ↔ ∃ m, l = [Value.map m]) ∧
      (r.isSome = true →
        ∃ att : Block, flattenFunctionSourceRepository r = Except.ok [Value.map att]) ∧
      (r = none → flattenFunctionSourceRepository r = Except.error Panic.nilDereference)) := by
  rcases schema_list_cases l hlen hel with rfl | rfl | ⟨m, rfl⟩
  · exact ⟨⟨none, rfl, by simp, by simp, fun _ => rfl⟩, ⟨none, rfl, by simp, by simp, fun _ => rfl⟩,
      ⟨none, rfl, by simp, by simp, fun _ => rfl⟩⟩
  · exact ⟨⟨none, rfl, by simp, by simp, fun _ => rfl⟩, ⟨none, rfl, by simp, by simp, fun _ => rfl⟩,
      ⟨none, rfl, by simp, by simp, fun _ => rfl⟩⟩
  · refine ⟨⟨_, expandFunctionEventTrigger_map m [], by simp, fun _ => ?_, by simp⟩,
      ⟨_, expandFunctionHttpsTrigger_map m [], by simp, fun _ => ?_, by simp⟩,
      ⟨_, expandFunctionSourceRepository_map m [], by simp, fun _ => ?_, by simp⟩⟩
    · exact ⟨_, rfl⟩
    · exact ⟨_, rfl⟩
    · exact ⟨_, rfl⟩

/-- Witness for C3: the one-block list `[{event_type: "topic.publish"}]` meets the
hypotheses, and expand followed by flatten succeeds on it. -/
theorem expand_safe_flatten_needs_block_witness :
    [Value.map [("event_type", Value.str "topic.publish")]].length ≤ 1 ∧
    ∃ r, expandFunctionEventTrigger [Value.map [("event_type", Value.str "topic.publish")]]
        = Except.ok r ∧
      ∃ att : Block, flattenFunctionEventTrigger r = Except.ok [Value.map att] :=
  let h := expand_safe_flatten_needs_block
    [Value.map [("event_type", Value.str "topic.publish")]] (by decide)
    (fun v hv => Or.inr ⟨_, List.mem_singleton.mp hv⟩)
  match h.1 with
  | ⟨r, hr, hiff, hfl, _⟩ => ⟨by decide, r, hr, hfl (hiff.mpr ⟨_, rfl⟩)⟩

/-- C4: flatten omits empty fields. For every non-nil struct `x`, the flattened value is a
list of exactly one block, which binds each schema key exactly when the corresponding field
of `x` is a non-empty string, to that field, and binds no key outside the schema. -/
theorem flatten_omits_empty_fields :
    (∀ x : EventTrigger, ∃ att : Block,
      flattenFunctionEventTrigger (some x) = Except.ok [Value.map att] ∧
      List.lookup "event_type" att
        = (if x.EventType = "" then none else some (Value.str x.EventType)) ∧
      List.lookup "resource" att
        = (if x.Resource = "" then none else some (Value.str x.Resource)) ∧
      ∀ k, k ∉ eventTriggerKeys → List.lookup k att = none) ∧
    (∀ x : HTTPSTrigger, ∃ att : Block,
      flattenFunctionHttpsTrigger (some x) = Except.ok [Value.map att] ∧
      List.lookup "url" att = (if x.Url = "" then none else some (Value.str x.Url)) ∧
      ∀ k, k ∉ httpsTriggerKeys → List.lookup k att = none) ∧
    (∀ x : SourceRepository, ∃ att : Block,
      flattenFunctionSourceRepository (some x) = Except.ok [Value.map att] ∧
      List.lookup "branch" att
        = (if x.Branch = "" then none else some (Value.str x.Branch)) ∧
      List.lookup "deployed_revision" att
        = (if x.DeployedRevision = "" then none else some (Value.str x.DeployedRevision)) ∧
      List.lookup "repository_url" att
        = (if x.RepositoryUrl = "" then none else some (Value.str x.RepositoryUrl)) ∧
      List.lookup "revision" att
        = (if x.Revision = "" then none else some (Value.str x.Revision)) ∧
      List.lookup "source_path" att
        = (if x.SourcePath = "" then none else some (Value.str x.SourcePath)) ∧
      List.lookup "tag" att = (if x.Tag = "" then none else some (Value.str x.Tag)) ∧
      ∀ k, k ∉ sourceRepositoryKeys → List.lookup k att = none) := by
  refine ⟨fun x => ?_, fun x => ?_, fun x => ?_⟩
  · obtain ⟨att, hfl, hlook⟩ := flattenFunctionEventTrigger_some x
    refine ⟨att, hfl, ?_, ?_, ?_⟩
    · rw [hlook]; simp [optStr]
    · rw [hlook]; simp [optStr]
    · intro k hk
      simp only [eventTriggerKeys, List.mem_cons, List.mem_singleton, List.mem_nil_iff,
        or_false, not_or] at hk
      rw [hlook]; simp [hk]
  · obtain ⟨att, hfl, hlook⟩ := flattenFunctionHttpsTrigger_some x
    refine ⟨att, hfl, ?_, ?_⟩
    · rw [hlook]; simp [optStr]
    · intro k hk
      simp only [httpsTriggerKeys, List.mem_cons, List.mem_singleton, List.mem_nil_iff,
        or_false, not_or] at hk
      rw [hlook]; simp [hk]
  · obtain ⟨att, hfl, hlook⟩ := flattenFunctionSourceRepository_some x
    refine ⟨att, hfl, ?_, ?_, ?_, ?_, ?_, ?_, ?_⟩
    · rw [hlook]; simp [optStr]
    · rw [hlook]; simp [optStr]
    · rw [hlook]; simp [optStr]
    · rw [hlook]; simp [optStr]
    · rw [hlook]; simp [optStr]
    · rw [hlook]; simp [optStr]
    · intro k hk
      simp only [sourceRepositoryKeys, List.mem_cons, List.mem_singleton, List.mem_nil_iff,
        or_false, not_or] at hk
      rw [hlook]; simp [hk]

/-- C5: expand extracts the named string fields. On the empty list and on a list whose
first element is nil the result is nil; otherwise, the first element being a block `m` (the
schema of the three attributes admits no other element), the result is a non-nil struct
whose fields are the strings `m` binds to the schema keys, empty where the key is absent or
bound to a value that is not a string; the elements after the first never influence the
result. -/
theorem expand_extracts_named_fields :
    (expandFunctionEventTrigger [] = Except.ok none ∧
      expandFunctionHttpsTrigger [] = Except.ok none ∧
      expandFunctionSourceRepository [] = Except.ok none) ∧
    (∀ rest : List Value,
      expandFunctionEventTrigger (Value.nil :: rest) = Except.ok none ∧
      expandFunctionHttpsTrigger (Value.nil :: rest) = Except.ok none ∧
      expandFunctionSourceRepository (Value.nil :: rest) = Except.ok none) ∧
    (∀ (m : Block) (rest : List Value),
      expandFunctionEventTrigger (Value.map m :: rest)
        = Except.ok (some { EventType := m.stringAt "event_type",
                            Resource := m.stringAt "resource" }) ∧
      expandFunctionHttpsTrigger (Value.map m :: rest)
        = Except.ok (some { Url := m.stringAt "url" }) ∧
      expandFunctionSourceRepository (Value.map m :: rest)
        = Except.ok (some { Branch := m.stringAt "branch",
                            DeployedRevision := m.stringAt "deployed_revision",
                            RepositoryUrl := m.stringAt "repository_url",
                            Revision := m.stringAt "revision",
                            SourcePath := m.stringAt "source_path",
                            Tag := m.stringAt "tag" })) ∧
    (∀ (v : Value) (rest rest' : List Value),
      expandFunctionEventTrigger (v :: rest) = expandFunctionEventTrigger (v :: rest') ∧
      expandFunctionHttpsTrigger (v :: rest) = expandFunctionHttpsTrigger (v :: rest') ∧
      expandFunctionSourceRepository (v :: rest)
        = expandFunctionSourceRepository (v :: rest')) :=
  ⟨⟨rfl, rfl, rfl⟩, fun _ => ⟨rfl, rfl, rfl⟩,
    fun m rest => ⟨expandFunctionEventTrigger_map m rest, expandFunctionHttpsTrigger_map m rest,
      expandFunctionSourceRepository_map m rest⟩,
    fun _ _ _ => ⟨rfl, rfl, rfl⟩⟩

/-- C6: the identifier Create sets is the constructed resource path. With project `p`,
`L` the configured location when set (non-empty) and the provider region otherwise,
`id = projects/p/locations/L/functions/name` and `parent = projects/p/locations/L`, and
with `fn` the descriptor Create builds (the creation call is issued once it is built): the
descriptor has `Name = id`; a failing creation call, addressed to `parent` with that
descriptor, returns its error and leaves the local state, identifier included, as it was;
after a successful creation call Create sets the identifier to `id`, in every run: a
polling error is returned with the state whose identifier is `id`; without one, Create is
Read on the state whose identifier is `id`, so that when the get call of that Read
succeeds Create returns no error and a state whose identifier is `id`, and when it fails
Create returns what `handleNotFoundError` makes of the state whose identifier is `id`. -/
theorem create_sets_identifier_to_resource_path (env : Env) (d : ResourceData)
    (config : Config) (w : World) (p L id parent : String) (fn : CloudFunction)
    (hp : env.getProject d config = Except.ok p)
    (hL : L = if d.location ≠ "" then d.location else config.Region)
    (hid : id = "projects/" ++ p ++ "/locations/" ++ L ++ "/functions/" ++ d.name)
    (hparent : parent = "projects/" ++ p ++ "/locations/" ++ L)
    (hfn : resourceCloudFunctionCreate_function d id = Except.ok fn) :
    fn.Name = id ∧
    (∀ e, config.clientFunctions.functionsCreate w parent fn = Except.error e →
      resourceCloudFunctionCreate env d config w
        = Except.ok (d, w ++ [Request.functionsCreate parent fn], some e)) ∧
    (∀ op, config.clientFunctions.functionsCreate w parent fn = Except.ok op →
      ∃ res w2,
        (resourceCloudFunctionCreate_stateConf env config fn d.name).WaitForState
            env.pollBudget 0 (w ++ [Request.functionsCreate parent fn]) = (res, w2) ∧
        (∀ e, res.2 = some e →
          resourceCloudFunctionCreate env d config w
            = Except.ok ({ d with id := id }, w2, some e)) ∧
        (res.2 = none →
          resourceCloudFunctionCreate env d config w
            = resourceCloudFunctionRead env { d with id := id } config w2) ∧
        (res.2 = none → ∀ resp,
          config.clientFunctions.functionsGet w2 id = Except.ok resp →
          ∃ d', resourceCloudFunctionCreate env d config w
              = Except.ok (d', w2 ++ [Request.functionsGet id], none) ∧
            d'.id = id ∧ d'.name = d.name) ∧
        (res.2 = none → ∀ err,
          config.clientFunctions.functionsGet w2 id = Except.error err →
          resourceCloudFunctionCreate env d config w
            = Except.ok
                ((env.handleNotFoundError err { d with id := id }
                    ("Cloud Function " ++ goQuote env.isPrintTable id)).1,
                 w2 ++ [Request.functionsGet id],
                 (env.handleNotFoundError err { d with id := id }
                    ("Cloud Function " ++ goQuote env.isPrintTable id)).2))) := by
  have hname := resourceCloudFunctionCreate_function_name d id fn hfn
  subst hL hparent
  refine ⟨hname, ?_, ?_⟩
  · intro e he
    subst hid
    simp only [resourceCloudFunctionCreate, hp, hfn, he]
  · intro op hop
    have hrun := resourceCloudFunctionCreate_after_call env d config w p fn op hp
      (by rw [← hid]; exact hfn) hop
    rw [hname] at hrun
    generalize hwait : (resourceCloudFunctionCreate_stateConf env config fn d.name).WaitForState
      env.pollBudget 0 _ = r at hrun
    obtain ⟨⟨res, err⟩, w2⟩ := r
    refine ⟨(res, err), w2, rfl, ?_, ?_, ?_, ?_⟩
    · intro e he
      simp only at he
      subst he
      exact hrun
    · intro he
      simp only at he
      subst he
      exact hrun
    · intro he resp hresp
      simp only at he
      subst he
      obtain ⟨d', hread, -, -, -, -, -, -, -, hn, -, -, hi⟩ :=
        resourceCloudFunctionRead_of_get_ok env { d with id := id } config w2 resp hresp
      exact ⟨d', hrun.trans hread, hi, hn⟩
    · intro he err' herr
      simp only at he
      subst he
      rw [hrun]
      simp only [resourceCloudFunctionRead, herr]

/-- Witness for C6: creating `newData`, which has no identifier yet, on the ready service,
in project `p` and with the provider region as location, ends without error in a state
whose identifier is the resource path. -/
theorem create_sets_identifier_to_resource_path_witness :
    newData.id = "" ∧
    sampleEnv.getProject newData readyConfig = Except.ok "p" ∧
    resourceCloudFunctionCreate_function newData
      "projects/p/locations/us-central1/functions/f" = Except.ok sampleFunction ∧
    sampleFunction.Name = "projects/p/locations/us-central1/functions/f" ∧
    ∃ d' w', resourceCloudFunctionCreate sampleEnv newData readyConfig []
        = Except.ok (d', w', none) ∧
      d'.id = "projects/p/locations/us-central1/functions/f" := by
  have h := create_sets_identifier_to_resource_path sampleEnv newData readyConfig [] "p"
    "us-central1" "projects/p/locations/us-central1/functions/f"
    "projects/p/locations/us-central1" sampleFunction rfl rfl rfl rfl rfl
  refine ⟨rfl, rfl, rfl, h.1, ?_⟩
  obtain ⟨res, w2, hwait, -, -, hfin, -⟩ := h.2.2 { Name := "operations/create-1" } rfl
  have hval : (resourceCloudFunctionCreate_stateConf sampleEnv readyConfig sampleFunction
      newData.name).WaitForState sampleEnv.pollBudget 0
        ([] ++ [Request.functionsCreate "projects/p/locations/us-central1" sampleFunction])
      = ((RefreshResult.function readyResponse, none),
         [Request.functionsCreate "projects/p/locations/us-central1" sampleFunction,
          Request.functionsGet "projects/p/locations/us-central1/functions/f"]) := by
    decide
  rw [hval] at hwait
  cases hwait
  obtain ⟨d', hc, hi, -⟩ := hfin rfl readyResponse rfl
  exact ⟨d', _, hc, hi⟩

/-- C7, counterexample: the backend reports the two-line reason `build failed:` /
`no index.js`; the status query returns status `FAILED` with an error whose message does
not contain that reason as a substring, because the verb `%q` escapes the line break. -/
theorem deploy_failed_message_escapes_reason :
    ∃ M w2,
      resourceCloudFunctionCreate_Refresh sampleEnv failedDeployConfig
          { Name := "projects/p/locations/us-central1/functions/f" } "f" []
        = ((RefreshResult.int 42, "FAILED", some (GoError.errorf M)), w2) ∧
      failedDeployConfig.clientFunctions.operationsGet
          [Request.functionsGet "projects/p/locations/us-central1/functions/f"]
          "operations/create-1"
        = Except.ok { Name := "operations/create-1", Done := true,
                      Error := some { Code := 3, Message := "build failed:\nno index.js" } } ∧
      ¬ containsSubstring M "build failed:\nno index.js" :=
  ⟨_, _, rfl, rfl, by decide⟩

/-- C7, amended: a failed deployment surfaces the reason of the backend in quoted form.
Take a run of Create in which project resolution and the creation call succeed and in
which, after `k` pending status queries with `k` below the poll budget, the get call
answers with status `FAILED`. If the lookup of the latest operation succeeds, the status
query returns, and Create returns, the error whose message is
`Deploying cloud function Q(name) failed: Q(reason)`, where `reason` is the message of the
error payload of the operation, the empty string when there is none, and Q is the
rendering of the verb `%q`; the message contains Q(reason), and it contains `reason` itself
whenever every character of `reason` is printable and is neither the double quote nor the
backslash. If the lookup fails, the status query and Create return the lookup error. -/
theorem create_failed_deployment_reports_quoted_reason (env : Env) (d : ResourceData)
    (config : Config) (w : World) (p : String) (fn : CloudFunction) (op : Operation)
    (k : Nat) (w' : World) (resp : CloudFunction)
    (hp : env.getProject d config = Except.ok p)
    (hfn : resourceCloudFunctionCreate_function d
      ("projects/" ++ p ++ "/locations/"
        ++ (if d.location ≠ "" then d.location else config.Region)
        ++ "/functions/" ++ d.name) = Except.ok fn)
    (hcall : config.clientFunctions.functionsCreate w
      ("projects/" ++ p ++ "/locations/"
        ++ (if d.location ≠ "" then d.location else config.Region)) fn = Except.ok op)
    (hpoll : (resourceCloudFunctionCreate_stateConf env config fn d.name).pendingPolls k
      (w ++ [Request.functionsCreate ("projects/" ++ p ++ "/locations/"
        ++ (if d.location ≠ "" then d.location else config.Region)) fn]) = some w')
    (hk : k < env.pollBudget)
    (hget : config.clientFunctions.functionsGet w' fn.Name = Except.ok resp)
    (hst : resp.Status = "FAILED") :
    (∀ out reason,
      config.clientFunctions.operationsGet (w' ++ [Request.functionsGet fn.Name])
        resp.LatestOperation = Except.ok out →
      reason = (match out.Error with
                | some e => e.Message
                | none => "") →
      resourceCloudFunctionCreate_Refresh env config fn d.name w'
        = ((RefreshResult.int 42, "FAILED",
            some (GoError.errorf
              ("Deploying cloud function " ++ goQuote env.isPrintTable d.name
                ++ " failed: " ++ goQuote env.isPrintTable reason))),
           w' ++ [Request.functionsGet fn.Name]
             ++ [Request.operationsGet resp.LatestOperation]) ∧
      resourceCloudFunctionCreate env d config w
        = Except.ok ({ d with id := fn.Name },
            w' ++ [Request.functionsGet fn.Name]
              ++ [Request.operationsGet resp.LatestOperation],
            some (GoError.errorf
              ("Deploying cloud function " ++ goQuote env.isPrintTable d.name
                ++ " failed: " ++ goQuote env.isPrintTable reason))) ∧
      containsSubstring
        ("Deploying cloud function " ++ goQuote env.isPrintTable d.name
          ++ " failed: " ++ goQuote env.isPrintTable reason)
        (goQuote env.isPrintTable reason) ∧
      ((∀ c ∈ reason.data, plainRune env.isPrintTable c = true) →
        containsSubstring
          ("Deploying cloud function " ++ goQuote env.isPrintTable d.name
            ++ " failed: " ++ goQuote env.isPrintTable reason)
          reason)) ∧
    (∀ e,
      config.clientFunctions.operationsGet (w' ++ [Request.functionsGet fn.Name])
        resp.LatestOperation = Except.error e →
      resourceCloudFunctionCreate_Refresh env config fn d.name w'
        = ((RefreshResult.int 42, "", some e),
           w' ++ [Request.functionsGet fn.Name]
             ++ [Request.operationsGet resp.LatestOperation]) ∧
      resourceCloudFunctionCreate env d config w
        = Except.ok ({ d with id := fn.Name },
            w' ++ [Request.functionsGet fn.Name]
              ++ [Request.operationsGet resp.LatestOperation],
            some e)) := by
  constructor
  · intro out reason hop hreason
    have hr := createRefresh_failed env config fn d.name w' resp out hget hst hop
    rw [← hreason] at hr
    refine ⟨hr, ?_, ?_, ?_⟩
    · exact resourceCloudFunctionCreate_poll_error env d config w p fn op k w' _ _ _ _
        hp hfn hcall hpoll hk hr
    · exact containsSubstring_append_right _ _
    · intro hplain
      exact containsSubstring_trans _ _ _ (containsSubstring_append_right _ _)
        (containsSubstring_goQuote_plain env.isPrintTable reason hplain)
  · intro e hop
    have hr := createRefresh_lookup_error env config fn d.name w' resp e hget hst hop
    exact ⟨hr, resourceCloudFunctionCreate_poll_error env d config w p fn op k w' _ _ _ _
        hp hfn hcall hpoll hk hr⟩

/-- Witness for C7: creating `sampleData` on the service whose deployments fail; the first
status query reports `FAILED`. -/
theorem create_failed_deployment_reports_quoted_reason_witness :
    sampleEnv.getProject sampleData failedDeployConfig = Except.ok "p" ∧
    failedDeployConfig.clientFunctions.functionsGet
      [Request.functionsCreate "projects/p/locations/us-central1" sampleFunction]
      sampleFunction.Name = Except.ok failedResponse ∧
    failedResponse.Status = "FAILED" ∧
    ∃ d' w'' M,
      resourceCloudFunctionCreate sampleEnv sampleData failedDeployConfig []
        = Except.ok (d', w'', some (GoError.errorf M)) ∧
      containsSubstring M (goQuote sampleEnv.isPrintTable "build failed:\nno index.js") :=
  ⟨rfl, rfl, rfl,
    match (create_failed_deployment_reports_quoted_reason sampleEnv sampleData
      failedDeployConfig [] "p" sampleFunction { Name := "operations/create-1" } 0
      [Request.functionsCreate "projects/p/locations/us-central1" sampleFunction]
      failedResponse rfl rfl rfl rfl (by decide) rfl rfl).1
      failedOperation "build failed:\nno index.js" rfl rfl with
    | ⟨_, hc, hs, _⟩ => ⟨_, _, _, hc, hs⟩⟩

/-- C8, counterexample: the ready service answers with an event trigger whose resource is
empty and an https trigger whose url is empty. After Read the event trigger block binds
`resource` to the empty string, which the flattened block does not bind, and the https
trigger is a nil element, where the flattened list holds an empty block: neither field
equals the flattening of the sub-struct of the response. -/
theorem read_stores_blocks_with_every_key :
    ∃ d', resourceCloudFunctionRead sampleEnv sampleData readyConfig []
        = Except.ok (d', [Request.functionsGet sampleData.id], none) ∧
      readyConfig.clientFunctions.functionsGet [] sampleData.id = Except.ok readyResponse ∧
      flattenFunctionEventTrigger readyResponse.EventTrigger
        = Except.ok [Value.map [("event_type", Value.str "topic.publish")]] ∧
      d'.event_trigger
        = [Value.map [("event_type", Value.str "topic.publish"),
                      ("resource", Value.str "")]] ∧
      flattenFunctionHttpsTrigger readyResponse.HttpsTrigger = Except.ok [Value.map []] ∧
      d'.https_trigger = [Value.nil] ∧
      Except.ok d'.event_trigger ≠ flattenFunctionEventTrigger readyResponse.EventTrigger ∧
      Except.ok d'.https_trigger ≠ flattenFunctionHttpsTrigger readyResponse.HttpsTrigger := by
  obtain ⟨d', h, -, -, -, -, het, hht, -⟩ :=
    resourceCloudFunctionRead_of_get_ok sampleEnv sampleData readyConfig [] readyResponse rfl
  have het' : d'.event_trigger
      = [Value.map [("event_type", Value.str "topic.publish"),
                    ("resource", Value.str "")]] := by
    rw [het]
    simp [readyResponse]
  have hht' : d'.https_trigger = [Value.nil] := by
    rw [hht]
    simp [readyResponse]
  have hfe : flattenFunctionEventTrigger readyResponse.EventTrigger
      = Except.ok [Value.map [("event_type", Value.str "topic.publish")]] := by
    simp [readyResponse, flattenFunctionEventTrigger, Block.set]
  have hfh : flattenFunctionHttpsTrigger readyResponse.HttpsTrigger
      = Except.ok [Value.map []] := by
    simp [readyResponse, flattenFunctionHttpsTrigger]
  refine ⟨d', h, rfl, hfe, het', hfh, hht', ?_, ?_⟩
  · rw [het', hfe]
    simp
  · rw [hht', hfh]
    simp

/-- C8, amended: Read overwrites only with non-empty response fields, and stores a block
with every schema key. When the get call succeeds with `resp`, Read returns no error
after that single call, and in the new state each of `available_memory_mb`, `entry_point`,
`source_archive_url`, `timeout` is the value of `resp` when that is non-zero and the old
value otherwise; each of `event_trigger`, `https_trigger`, `source_repository` is the old
value when the sub-struct of `resp` is absent, and otherwise the flattening of that
sub-struct as the framework stores it: a one-element list whose element is nil when every
mapped field is empty and is otherwise the block that binds every schema key to its field,
the empty fields to the empty string; `name`, `location`, `service_account` and the
identifier are unchanged. -/
theorem read_overwrites_only_nonempty (env : Env) (d : ResourceData) (config : Config)
    (w : World) (resp : CloudFunction)
    (hget : config.clientFunctions.functionsGet w d.id = Except.ok resp) :
    ∃ d', resourceCloudFunctionRead env d config w
        = Except.ok (d', w ++ [Request.functionsGet d.id], none) ∧
      d'.available_memory_mb
        = (if resp.AvailableMemoryMb = 0 then d.available_memory_mb
           else resp.AvailableMemoryMb) ∧
      d'.entry_point = (if resp.EntryPoint = "" then d.entry_point else resp.EntryPoint) ∧
      d'.source_archive_url
        = (if resp.SourceArchiveUrl = "" then d.source_archive_url
           else resp.SourceArchiveUrl) ∧
      d'.timeout = (if resp.Timeout = "" then d.timeout else resp.Timeout) ∧
      d'.event_trigger
        = (match resp.EventTrigger with
           | some x =>
             [if x.EventType = "" ∧ x.Resource = "" then Value.nil
              else Value.map [("event_type", Value.str x.EventType),
                              ("resource", Value.str x.Resource)]]
           | none => d.event_trigger) ∧
      d'.https_trigger
        = (match resp.HttpsTrigger with
           | some x => [if x.Url = "" then Value.nil else Value.map [("url", Value.str x.Url)]]
           | none => d.https_trigger) ∧
      d'.source_repository
        = (match resp.SourceRepository with
           | some x =>
             [if x.Branch = "" ∧ x.DeployedRevision = "" ∧ x.RepositoryUrl = "" ∧
                 x.Revision = "" ∧ x.SourcePath = "" ∧ x.Tag = "" then Value.nil
              else Value.map [("branch", Value.str x.Branch),
                              ("deployed_revision", Value.str x.DeployedRevision),
                              ("repository_url", Value.str x.RepositoryUrl),
                              ("revision", Value.str x.Revision),
                              ("source_path", Value.str x.SourcePath),
                              ("tag", Value.str x.Tag)]]
           | none => d.source_repository) ∧
      d'.name = d.name ∧ d'.location = d.location ∧
      d'.service_account = d.service_account ∧ d'.id = d.id :=
  resourceCloudFunctionRead_of_get_ok env d config w resp hget

/-- Witness for C8: reading a stored function on the ready service overwrites the entry
point, which the service echoes, keeps the timeout, which it does not, and leaves the
source repository, which the response lacks, as it was. -/
theorem read_overwrites_only_nonempty_witness :
    readyConfig.clientFunctions.functionsGet [] sampleData.id = Except.ok readyResponse ∧
    ∃ d', resourceCloudFunctionRead sampleEnv sampleData readyConfig []
        = Except.ok (d', [Request.functionsGet sampleData.id], none) ∧
      d'.entry_point = "handler" ∧ d'.timeout = "60s" ∧
      d'.source_repository = sampleData.source_repository ∧ d'.id = sampleData.id :=
  ⟨rfl,
    match read_overwrites_only_nonempty sampleEnv sampleData readyConfig []
      readyResponse rfl with
    | ⟨d', h, _, hep, _, hto, _, _, hsr, _, _, _, hid⟩ => ⟨d', h, hep, hto, hsr, hid⟩⟩

/-- C9, counterexample: for the identifier `fn"1` the error on status `FAILED` is not
`Deletion of function "fn"1" failed.`: the verb `%q` escapes the inner quote. -/
theorem delete_failed_message_is_quoted :
    ∃ M, resourceCloudFunctionDelete_Refresh sampleEnv failedDeployConfig quotedName []
        = ((RefreshResult.int 42, "", some (GoError.errorf M)),
           [Request.functionsGet quotedName]) ∧
      M ≠ "Deletion of function " ++ String.mk (dquote :: (quotedName.data ++ [dquote]))
            ++ " failed." ∧
      M = "Deletion of function "
            ++ String.mk [dquote, 'f', 'n', backslash, dquote, '1', dquote] ++ " failed." :=
  ⟨_, rfl, by decide, by decide⟩

/-- C9, amended: the status query of Delete treats not-found as success and `FAILED` as
an error. At any world `w` and for any identifier `n`: a get error that is an API error of
code 404 gives the absent result without error, which ends the wait successfully; any
other get error is returned unchanged and ends the wait with it; status `FAILED` gives the
error `Deletion of function Q failed.`, where Q is `n` as the verb `%q` renders it, and
ends the wait with it; any other status is returned with the response and no error, and
then the wait goes on to the next query exactly when the status is `STATUS_UNSPECIFIED`,
`DEPLOYING` or `DELETING` (on any other status it ends with an unexpected-state error). Q
is `n` between double quotes when every character of `n` is printable and is neither the
double quote nor the backslash. A failing deletion call is returned at once, with no status
query; after a successful one the outcome of Delete is the outcome of the wait. -/
theorem delete_poll_step (env : Env) (config : Config) (n : String) (w : World) :
    (∀ msg body,
      config.clientFunctions.functionsGet w n
        = Except.error (GoError.googleapi 404 msg body) →
      resourceCloudFunctionDelete_Refresh env config n w
        = ((RefreshResult.nil, "", none), w ++ [Request.functionsGet n]) ∧
      ∀ budget tick,
        (resourceCloudFunctionDelete_stateConf env config n).WaitForState (budget + 1) tick w
          = ((RefreshResult.nil, none), w ++ [Request.functionsGet n])) ∧
    (∀ err, config.clientFunctions.functionsGet w n = Except.error err →
      (∀ msg body, err ≠ GoError.googleapi 404 msg body) →
      resourceCloudFunctionDelete_Refresh env config n w
        = ((RefreshResult.int 42, "", some err), w ++ [Request.functionsGet n]) ∧
      ∀ budget tick,
        (resourceCloudFunctionDelete_stateConf env config n).WaitForState (budget + 1) tick w
          = ((RefreshResult.int 42, some err), w ++ [Request.functionsGet n])) ∧
    (∀ resp, config.clientFunctions.functionsGet w n = Except.ok resp →
      resp.Status = "FAILED" →
      resourceCloudFunctionDelete_Refresh env config n w
        = ((RefreshResult.int 42, "",
            some (GoError.errorf
              ("Deletion of function " ++ goQuote env.isPrintTable n ++ " failed."))),
           w ++ [Request.functionsGet n]) ∧
      ∀ budget tick,
        (resourceCloudFunctionDelete_stateConf env config n).WaitForState (budget + 1) tick w
          = ((RefreshResult.int 42,
              some (GoError.errorf
                ("Deletion of function " ++ goQuote env.isPrintTable n ++ " failed."))),
             w ++ [Request.functionsGet n])) ∧
    (∀ resp, config.clientFunctions.functionsGet w n = Except.ok resp →
      resp.Status ≠ "FAILED" →
      resourceCloudFunctionDelete_Refresh env config n w
        = ((RefreshResult.function resp, resp.Status, none),
           w ++ [Request.functionsGet n]) ∧
      ∀ budget tick,
        (resourceCloudFunctionDelete_stateConf env config n).WaitForState (budget + 1) tick w
          = (if resp.Status ∈ ["STATUS_UNSPECIFIED", "DEPLOYING", "DELETING"] then
               (resourceCloudFunctionDelete_stateConf env config n).WaitForState budget 0
                 (w ++ [Request.functionsGet n])
             else
               ((RefreshResult.function resp, some (GoError.unexpectedState resp.Status)),
                w ++ [Request.functionsGet n]))) ∧
    ((∀ c ∈ n.data, plainRune env.isPrintTable c = true) →
      "Deletion of function " ++ goQuote env.isPrintTable n ++ " failed."
        = "Deletion of function " ++ String.mk (dquote :: (n.data ++ [dquote]))
            ++ " failed.") ∧
    (∀ (d : ResourceData) (w0 : World) (e : GoError), d.id = n →
      config.clientFunctions.functionsDelete w0 n = Except.error e →
      resourceCloudFunctionDelete env d config w0
        = (d, w0 ++ [Request.functionsDelete n], some e)) ∧
    (∀ (d : ResourceData) (w0 : World) (op : Operation), d.id = n →
      config.clientFunctions.functionsDelete w0 n = Except.ok op →
      resourceCloudFunctionDelete env d config w0
        = (d,
           ((resourceCloudFunctionDelete_stateConf env config n).WaitForState env.pollBudget 0
              (w0 ++ [Request.functionsDelete n])).2,
           ((resourceCloudFunctionDelete_stateConf env config n).WaitForState env.pollBudget 0
              (w0 ++ [Request.functionsDelete n])).1.2)) := by
  have hR : (resourceCloudFunctionDelete_stateConf env config n).Refresh
      = resourceCloudFunctionDelete_Refresh env config n := rfl
  have hT : (resourceCloudFunctionDelete_stateConf env config n).Target = [] := rfl
  have hP : (resourceCloudFunctionDelete_stateConf env config n).Pending
      = ["STATUS_UNSPECIFIED", "DEPLOYING", "DELETING"] := rfl
  refine ⟨?_, ?_, ?_, ?_, ?_, ?_, ?_⟩
  · intro msg body h
    have hr := deleteRefresh_notFound env config n w msg body h
    refine ⟨hr, fun budget tick => ?_⟩
    rw [StateChangeConf.WaitForState, hR, hr]
    simp [hT]
  · intro err h hne
    have hr := deleteRefresh_error env config n w err h hne
    refine ⟨hr, fun budget tick => ?_⟩
    rw [StateChangeConf.WaitForState, hR, hr]
  · intro resp h hst
    have hr := deleteRefresh_failed env config n w resp h hst
    refine ⟨hr, fun budget tick => ?_⟩
    rw [StateChangeConf.WaitForState, hR, hr]
  · intro resp h hst
    have hr := deleteRefresh_status env config n w resp h hst
    refine ⟨hr, fun budget tick => ?_⟩
    rw [StateChangeConf.WaitForState, hR, hr]
    simp only [hT, hP, List.not_mem_nil, if_false]
    by_cases hin : resp.Status ∈ ["STATUS_UNSPECIFIED", "DEPLOYING", "DELETING"]
    · simp only [hin, if_true]
    · simp [hin]
  · intro hplain
    rw [goQuote_plain env.isPrintTable n hplain]
  · intro d w0 e hd he
    subst hd
    simp only [resourceCloudFunctionDelete, he]
  · intro d w0 op hd hop
    subst hd
    simp only [resourceCloudFunctionDelete, hop]
    generalize (resourceCloudFunctionDelete_stateConf env config d.id).WaitForState
      env.pollBudget 0 _ = r
    obtain ⟨⟨res, err⟩, w2⟩ := r
    cases err <;> rfl

/-- Witness for C9: deleting `sampleData` on a service where the function is gone at the
first status query: one deletion call, one status query, no error. -/
theorem delete_poll_step_witness :
    goneConfig.clientFunctions.functionsGet [Request.functionsDelete sampleData.id]
      sampleData.id = Except.error (GoError.googleapi 404 "Not Found" "") ∧
    resourceCloudFunctionDelete sampleEnv sampleData goneConfig []
      = (sampleData,
         [Request.functionsDelete sampleData.id, Request.functionsGet sampleData.id],
         none) := by
  obtain ⟨h404, -, -, -, -, -, hdel⟩ :=
    delete_poll_step sampleEnv goneConfig sampleData.id [Request.functionsDelete sampleData.id]
  have hw := (h404 "Not Found" "" rfl).2 2 0
  have hd := hdel sampleData [] { Name := "operations/delete-1" } rfl rfl
  refine ⟨rfl, hd.trans ?_⟩
  rw [show sampleEnv.pollBudget = 2 + 1 from rfl,
    show ([] : World) ++ [Request.functionsDelete sampleData.id]
      = [Request.functionsDelete sampleData.id] from rfl, hw]
  rfl

/-- C10: the update request does not depend on the configuration. For two configurations
with the same identifier, in the same world, Update issues exactly one call, the update
call addressed to that identifier with the all-zero descriptor, the same for both (so no
status query and no read), returns the same error for both, namely the error of that call
and none when it succeeds, and leaves each local state as it was. -/
theorem update_request_ignores_configuration (d1 d2 : ResourceData) (config : Config)
    (w : World) (hid : d1.id = d2.id) :
    (resourceCloudFunctionUpdate d1 config w).2.1
      = w ++ [Request.functionsUpdate d1.id
          { AvailableMemoryMb := 0, EntryPoint := "", EventTrigger := none,
            HttpsTrigger := none, LatestOperation := "", Name := "", ServiceAccount := "",
            SourceArchiveUrl := "", SourceRepository := none, Status := "", Timeout := "",
            UpdateTime := "" }] ∧
    (resourceCloudFunctionUpdate d2 config w).2.1
      = (resourceCloudFunctionUpdate d1 config w).2.1 ∧
    (resourceCloudFunctionUpdate d2 config w).2.2
      = (resourceCloudFunctionUpdate d1 config w).2.2 ∧
    (resourceCloudFunctionUpdate d1 config w).1 = d1 ∧
    (resourceCloudFunctionUpdate d2 config w).1 = d2 ∧
    (resourceCloudFunctionUpdate d1 config w).2.2
      = (match config.clientFunctions.functionsUpdate w d1.id {} with
         | Except.error err => some err
         | Except.ok _ => none) := by
  unfold resourceCloudFunctionUpdate
  rw [← hid]
  simp only []
  cases h : config.clientFunctions.functionsUpdate w d1.id {} <;> simp [h]

/-- Witness for C10: two configurations of the same function that differ in the entry
point. -/
theorem update_request_ignores_configuration_witness :
    sampleData.id = { sampleData with entry_point := "other" }.id ∧
    (resourceCloudFunctionUpdate { sampleData with entry_point := "other" } readyConfig []).2
      = (resourceCloudFunctionUpdate sampleData readyConfig []).2 :=
  ⟨rfl,
    match update_request_ignores_configuration sampleData
      { sampleData with entry_point := "other" } readyConfig [] rfl with
    | ⟨_, h2, h3, _, _, _⟩ => Prod.ext h2 h3⟩

end Google
